import Mathlib

/-!
Verification of the reminder-store synchronization subsystem of `taskr`
(`src/taskr/sync/reminders/{osa.py, core.py, manager.py}`), as a shallow
embedding in Lean 4.  Python strings are modelled by `String`/`List Char`,
machine integers by `Int`/`Nat`, dynamically-typed executor results by the
`PyVal` inductive, and raised exceptions by `Except String`.
-/

namespace Taskr

instance {ε α : Type} [DecidableEq ε] [DecidableEq α] : DecidableEq (Except ε α) :=
  fun x y =>
    match x, y with
    | .ok a, .ok b =>
      if h : a = b then .isTrue (by rw [h]) else .isFalse (by simp [h])
    | .error a, .error b =>
      if h : a = b then .isTrue (by rw [h]) else .isFalse (by simp [h])
    | .ok _, .error _ => .isFalse (by simp)
    | .error _, .ok _ => .isFalse (by simp)

/-! ## Python string primitives

The source uses `str.strip()`, `str.split(sep)`, `str.startswith`,
`str.replace` and `"".join(key.split())`.  We model them over `List Char`
with executable definitions we can reason about.  Python's default
whitespace set for `strip`/`split()` is space, tab, LF, CR, VT, FF. -/

/-- Whitespace, as Python `str.strip` / `str.split()` recognize it. -/
def pyws (c : Char) : Bool :=
  c = ' ' || c = '\t' || c = '\n' || c = '\r' || c = '\x0b' || c = '\x0c'

/-- Python `s.strip()`: drop leading and trailing whitespace. -/
def pystripCl (cs : List Char) : List Char :=
  ((cs.dropWhile pyws).reverse.dropWhile pyws).reverse

/-- Python `s.strip()` on a `String`. -/
def pystrip (s : String) : String :=
  ⟨pystripCl s.data⟩

/-- Boolean "is `p` a prefix of `cs`" used to model `str.startswith` and
the scanning step of `str.split(sep)`. -/
def hasPrefixCl : List Char → List Char → Bool
  | [], _ => true
  | _ :: _, [] => false
  | p :: ps, c :: cs => p = c && hasPrefixCl ps cs

/-- Python `s.startswith(pre)`. -/
def pyStartsWith (s pre : String) : Bool :=
  hasPrefixCl pre.data s.data

/-- Worker for Python `s.replace(pat, repl)` with a non-empty pattern
`p1 :: ps`: replace every non-overlapping occurrence left to right.  The
fuel is kept at or above the scanned list's length. -/
def pyreplaceGo (p1 : Char) (ps repl : List Char) :
    Nat → List Char → List Char
  | _, [] => []
  | 0, c :: rest => c :: rest
  | fuel + 1, c :: rest =>
    if hasPrefixCl (p1 :: ps) (c :: rest) then
      repl ++ pyreplaceGo p1 ps repl fuel (rest.drop ps.length)
    else
      c :: pyreplaceGo p1 ps repl fuel rest

/-- Python `s.replace(pat, repl)` (the source only calls it with a
non-empty pattern). -/
def pyreplace (s pat repl : String) : String :=
  match pat.data with
  | [] => s
  | p1 :: ps => ⟨pyreplaceGo p1 ps repl.data s.data.length s.data⟩

/-- Worker for Python `s.split(sep)` with a non-empty separator
`s1 :: srest`: scan left to right, cutting at each (non-overlapping)
occurrence of the separator.  `acc` holds the current piece reversed;
the fuel is kept at or above the scanned list's length, so the
fuel-exhaustion branch is unreachable. -/
def pysplitGo (s1 : Char) (srest : List Char) :
    Nat → List Char → List Char → List (List Char)
  | _, [], acc => [acc.reverse]
  | 0, _ :: _, acc => [acc.reverse]
  | fuel + 1, c :: rest, acc =>
    if hasPrefixCl (s1 :: srest) (c :: rest) then
      acc.reverse :: pysplitGo s1 srest fuel (rest.drop srest.length) []
    else
      pysplitGo s1 srest fuel rest (c :: acc)

/-- Python `s.split(sep)` for a non-empty separator (the only form the
source uses); returns the list of pieces between occurrences. -/
def pysplit (s sep : String) : List String :=
  match sep.data with
  | [] => [s]
  | s1 :: srest =>
    (pysplitGo s1 srest s.data.length s.data []).map fun cs => (⟨cs⟩ : String)

/-- Python `sub in s` (substring containment), via `split`: a non-empty
separator occurs in `s` iff splitting on it yields more than one piece. -/
def pyContains (s sub : String) : Bool :=
  1 < (pysplit s sub).length

/-! ## `osascript.parse.reminderproperties` — the bulk record scanner
(`osa.py` lines 106-148).

The scan walks the raw output one character at a time with state
`(values, currentvalue, indate)`:

    for char in output:
        if (char == ',') and (not indate):
            values.append(currentvalue.strip()); currentvalue = ""
        else:
            if (char == 'd') and (currentvalue.strip() == "date"):
                indate = True
            elif indate and (char == 'M'):
                currentvalue += char
                values.append(currentvalue.strip()); currentvalue = ""
                indate = False
            else:
                currentvalue += char
-/

/-- One iteration of the character loop.  Note the second branch fires
only while reading a `'d'` with the accumulated text stripping to exactly
`"date"`, and it drops that `'d'`. -/
def scanStep (st : List String × String × Bool) (c : Char) :
    List String × String × Bool :=
  let (values, cur, indate) := st
  if c = ',' && !indate then
    (values ++ [pystrip cur], "", indate)
  else if c = 'd' && pystrip cur = "date" then
    (values, cur, true)
  else if indate && c = 'M' then
    (values ++ [pystrip (cur.push c)], "", false)
  else
    (values, cur.push c, indate)

/-- The whole scan (`osa.py` lines 110-130): run the loop over the raw
string; afterwards, flush the last field if its stripped text is
non-empty. -/
def scanvalues (s : String) : List String :=
  let st := s.data.foldl scanStep ([], "", false)
  if pystrip st.2.1 ≠ "" then st.1 ++ [pystrip st.2.1] else st.1

/-- Python dict assignment `d[k] = v` on an insertion-ordered assoc list:
overwrite in place if the key exists, else append. -/
def dictSet (d : List (String × α)) (k : String) (v : α) : List (String × α) :=
  if d.any fun p => p.1 = k then
    d.map fun p => if p.1 = k then (k, v) else p
  else
    d ++ [(k, v)]

/-- `for i, prop in enumerate(properties): reminder[prop] = values[i]`
(call sites guarantee the two lists have equal length). -/
def mkDict (props vals : List String) : List (String × String) :=
  (props.zip vals).foldl (fun d pv => dictSet d pv.1 pv.2) []

/-- Worker for `pychunks`, with fuel kept at or above the list's
length. -/
def pychunksGo (p : Nat) : Nat → List α → List (List α)
  | _, [] => []
  | 0, _ :: _ => []
  | fuel + 1, a :: rest =>
    if p = 0 then []
    else (a :: rest).take p :: pychunksGo p fuel ((a :: rest).drop p)

/-- Python `[values[i:i+p] for i in range(0, len(values), p)]` for a
positive step `p`. -/
def pychunks (p : Nat) (v : List α) : List (List α) :=
  pychunksGo p v.length v

/-- Record emission from the scanned values (`osa.py` lines 132-148):
one record if the counts match exactly; otherwise chunk sequentially and
keep only the complete chunks.  With an empty property list and a
non-empty value list Python's `range(0, len, 0)` raises `ValueError`. -/
def emitRecords (values properties : List String) :
    Except String (List (List (String × String))) :=
  if values.length = properties.length then
    .ok [mkDict properties values]
  else if properties.length = 0 then
    .error "ValueError: range() arg 3 must not be zero"
  else
    .ok (((pychunks properties.length values).filter
            fun chunk => chunk.length = properties.length).map
          fun chunk => mkDict properties chunk)

/-- Dynamically-typed values returned by the script executor: `None`,
a bool, or a string.  (Structured `json.loads` results are supplied by
the `jsonLoads` collaborator parameter below and are also drawn from
this type.) -/
inductive PyVal where
  | pynone : PyVal
  | pybool : Bool → PyVal
  | pystr : String → PyVal
deriving DecidableEq, Repr

/-- Python truthiness of a `PyVal`. -/
def PyVal.truthy : PyVal → Bool
  | .pynone => false
  | .pybool b => b
  | .pystr s => s ≠ ""

/-- Python `output == "True"`: comparing the executor result with the
*string* `"True"`.  Note `True == "True"` is `False` in Python, so the
boolean success sentinel does not satisfy this guard. -/
def eqTrueString : PyVal → Bool
  | .pystr s => s = "True"
  | _ => false

/-- `osascript.parse.reminderproperties(output, properties)`
(`osa.py` lines 106-148).  The guard returns `[]` for falsy output or the
string `"True"`; then `for char in output` iterates — which raises
`TypeError` when `output` is not a string (in particular when it is the
boolean success sentinel `True`). -/
def reminderproperties (output : PyVal) (properties : List String) :
    Except String (List (List (String × String))) :=
  if !output.truthy || eqTrueString output then
    .ok []
  else
    match output with
    | .pystr s => emitRecords (scanvalues s) properties
    | _ => .error "TypeError: argument of type is not iterable"

/-! ## `OsaDate` (`core.py` lines 8-52)

The recognizer is the verbose regex

    ^(?:(?P<weekday>[A-Za-z]+),\s*)?
     (?P<month>[A-Za-z]+)\s+(?P<day>\d{1,2}),\s+(?P<year>\d{4})
     (?:\s+at\s+(?P<hour>\d{1,2}):(?P<minute>\d{2})(?::(?P<second>\d{2}))?\s*(?P<ampm>[APap][Mm])?)?$

used with `fullmatch`.  We embed it as a deterministic matcher: every
quantified sub-pattern here is a character-class run whose follower set is
disjoint from the class, so the backtracking regex accepts iff the
maximal-munch scan below accepts (for `\d{1,2}`, `\d{2}`, `\d{4}` the
follower is never a digit, so the maximal digit run must itself have the
required length; for `[A-Za-z]+` the follower is `,`, whitespace or a
digit; for `\s+`/`\s*` the follower is never whitespace; the optional
weekday group is present iff the first alpha run is followed by `,`,
since a month must be followed by whitespace). -/

/-- The regex class `[A-Za-z]`. -/
def reAlpha (c : Char) : Bool :=
  ('A' ≤ c && c ≤ 'Z') || ('a' ≤ c && c ≤ 'z')

/-- The regex class `\d`. -/
def reDigit (c : Char) : Bool :=
  '0' ≤ c && c ≤ '9'

/-- The regex class `[APap]` (first meridian letter). -/
def reMer1 (c : Char) : Bool :=
  c = 'A' || c = 'P' || c = 'a' || c = 'p'

/-- The regex class `[Mm]` (second meridian letter). -/
def reMer2 (c : Char) : Bool :=
  c = 'M' || c = 'm'

/-- Tail of the pattern: `\s*(?P<ampm>[APap][Mm])?$`. -/
def matchTimeEnd (cs : List Char) : Bool :=
  match cs.dropWhile pyws with
  | [] => true
  | [a, m] => reMer1 a && reMer2 m
  | _ => false

/-- `(?::(?P<second>\d{2}))?` followed by the time end: a `:` forces the
optional seconds group (nothing else in the remainder can match `:`). -/
def matchSeconds (cs : List Char) : Bool :=
  match cs with
  | ':' :: rest =>
    ((rest.takeWhile reDigit).length = 2) && matchTimeEnd (rest.dropWhile reDigit)
  | _ => matchTimeEnd cs

/-- `(?P<minute>\d{2})` followed by the optional seconds. -/
def matchMinutes (cs : List Char) : Bool :=
  ((cs.takeWhile reDigit).length = 2) && matchSeconds (cs.dropWhile reDigit)

/-- `(?P<hour>\d{1,2}):` followed by the minutes. -/
def matchHour (cs : List Char) : Bool :=
  (((cs.takeWhile reDigit).length = 1) || ((cs.takeWhile reDigit).length = 2)) &&
    match cs.dropWhile reDigit with
    | ':' :: rest => matchMinutes rest
    | _ => false

/-- `(?:\s+at\s+<hour...>)?$`: either the string ends right after the
year, or mandatory whitespace, the literal `at`, mandatory whitespace and
the time. -/
def matchAfterYear (cs : List Char) : Bool :=
  match cs with
  | [] => true
  | _ =>
    ((cs.takeWhile pyws) ≠ []) &&
      match cs.dropWhile pyws with
      | 'a' :: 't' :: rest =>
        ((rest.takeWhile pyws) ≠ []) && matchHour (rest.dropWhile pyws)
      | _ => false

/-- `(?P<year>\d{4})` followed by the optional time part. -/
def matchYearOn (cs : List Char) : Bool :=
  ((cs.takeWhile reDigit).length = 4) && matchAfterYear (cs.dropWhile reDigit)

/-- `(?P<day>\d{1,2}),\s+` followed by the year. -/
def matchDayOn (cs : List Char) : Bool :=
  (((cs.takeWhile reDigit).length = 1) || ((cs.takeWhile reDigit).length = 2)) &&
    match cs.dropWhile reDigit with
    | ',' :: rest => ((rest.takeWhile pyws) ≠ []) && matchYearOn (rest.dropWhile pyws)
    | _ => false

/-- `(?P<month>[A-Za-z]+)\s+` followed by the day. -/
def matchMonthOn (cs : List Char) : Bool :=
  ((cs.takeWhile reAlpha) ≠ []) &&
    (((cs.dropWhile reAlpha).takeWhile pyws) ≠ []) &&
    matchDayOn ((cs.dropWhile reAlpha).dropWhile pyws)

/-- The whole pattern: the optional weekday group `(?:[A-Za-z]+,\s*)?` is
taken iff the first alpha run is followed directly by a comma. -/
def isosadateChars (cs : List Char) : Bool :=
  match cs.dropWhile reAlpha with
  | ',' :: rest =>
    ((cs.takeWhile reAlpha) ≠ []) && matchMonthOn (rest.dropWhile pyws)
  | _ => matchMonthOn cs

/-- `OsaDate._pattern.fullmatch(value)` as a boolean, i.e.
`OsaDate.isosadate` (`core.py` lines 28-30). -/
def isosadateStr (s : String) : Bool :=
  isosadateChars s.data

/-- The free function `isosadate(value)` (`core.py` lines 45-52) applied
to an executor value: `None` is rejected, strings are matched against the
pattern, anything else is rejected.  (`OsaDate` instances are strings that
already passed the pattern.) -/
def isosadateVal : PyVal → Bool
  | .pystr s => isosadateStr s
  | _ => false

/-! ## Python `datetime` values and `OsaDate.FromDatetime`
(`core.py` lines 32-42). -/

/-- A Python `datetime.datetime` value (microseconds are stripped by the
source before formatting, so we omit them). -/
structure PyDatetime where
  year : Nat
  month : Nat
  day : Nat
  hour : Nat
  minute : Nat
  second : Nat
deriving DecidableEq, Repr

/-- The invariants Python's `datetime` constructor enforces (we keep the
day bound at 31, weaker than the per-month bound, which only widens the
quantifier of theorems stated under it). -/
def PyDatetime.Valid (d : PyDatetime) : Prop :=
  1 ≤ d.year ∧ d.year ≤ 9999 ∧ 1 ≤ d.month ∧ d.month ≤ 12 ∧
    1 ≤ d.day ∧ d.day ≤ 31 ∧ d.hour ≤ 23 ∧ d.minute ≤ 59 ∧ d.second ≤ 59

instance (d : PyDatetime) : Decidable d.Valid := by
  unfold PyDatetime.Valid; infer_instance

/-- The ten decimal digit characters. -/
def decDigits : List Char :=
  ['0', '1', '2', '3', '4', '5', '6', '7', '8', '9']

/-- Worker for `pyNatDigits`, with fuel kept at or above `n`. -/
def pyNatDigitsGo : Nat → Nat → List Char
  | _, 0 => []
  | 0, _ + 1 => []
  | fuel + 1, n + 1 =>
    pyNatDigitsGo fuel ((n + 1) / 10) ++ [decDigits.getD ((n + 1) % 10) '0']

/-- Decimal digits of `n`, most significant first (empty for 0), the
recursion underlying Python `str(n)`. -/
def pyNatDigits (n : Nat) : List Char :=
  pyNatDigitsGo n n

/-- Python `str(n)` for a non-negative integer. -/
def pyNatStr (n : Nat) : String :=
  if n = 0 then "0" else ⟨pyNatDigits n⟩

/-- Zero-padding to two digits, as `str(datetime.time)` prints each of
hour, minute and second. -/
def pad2 (n : Nat) : String :=
  if n < 10 then "0" ++ pyNatStr n else pyNatStr n

/-- Python `str(dt.time())`: `HH:MM:SS` (seconds always printed;
microseconds were already stripped by `replace(microsecond=0)`). -/
def pyTimeStr (d : PyDatetime) : String :=
  pad2 d.hour ++ ":" ++ pad2 d.minute ++ ":" ++ pad2 d.second

/-- `dt.strftime("%A")` weekday names, index 0 = Monday as in
`datetime.weekday()`. -/
def weekdayNames : List String :=
  ["Monday", "Tuesday", "Wednesday", "Thursday", "Friday", "Saturday", "Sunday"]

/-- `dt.strftime("%B")` month names, index 0 = January. -/
def monthNames : List String :=
  ["January", "February", "March", "April", "May", "June", "July",
   "August", "September", "October", "November", "December"]

/-- `datetime.weekday()` (Monday = 0) for the proleptic Gregorian
calendar, via Sakamoto's congruence (which returns Sunday = 0, shifted
here by 6). -/
def pyWeekday (d : PyDatetime) : Nat :=
  let t : List Nat := [0, 3, 2, 5, 0, 3, 5, 1, 4, 6, 2, 4]
  let y := if d.month < 3 then d.year - 1 else d.year
  (y + y / 4 - y / 100 + y / 400 + t.getD (d.month - 1) 0 + d.day + 6) % 7

/-- `dt.strftime("%A")`. -/
def strftimeA (d : PyDatetime) : String :=
  weekdayNames.getD (pyWeekday d) ""

/-- `dt.strftime("%B")`. -/
def strftimeB (d : PyDatetime) : String :=
  monthNames.getD (d.month - 1) ""

/-- `dt.strftime("%p")`. -/
def strftimeP (d : PyDatetime) : String :=
  if d.hour < 12 then "AM" else "PM"

/-- The f-string of `OsaDate.FromDatetime` (`core.py` line 42):
`f"{weekday}, {month} {dt.day}, {dt.year} at {timestamp} {meridian}"`.
Note the day and year are printed unpadded by `str`, and the timestamp is
the 24-hour `str(time)` even though the meridian suffix is also
appended. -/
def osaFormat (d : PyDatetime) : String :=
  strftimeA d ++ ", " ++ strftimeB d ++ " " ++ pyNatStr d.day ++ ", " ++
    pyNatStr d.year ++ " at " ++ pyTimeStr d ++ " " ++ strftimeP d

/-- `OsaDate.FromDatetime(dt)`: the `OsaDate.__new__` constructor
re-validates the formatted string against the pattern and raises
`ValueError` when it does not match (`core.py` lines 19-22). -/
def OsaDateFromDatetime (d : PyDatetime) : Except String String :=
  if isosadateStr (osaFormat d) then .ok (osaFormat d)
  else .error "ValueError: Invalid OsaDate"

/-! ## Property payload values and the command builder (`osa.py` 150-282) -/

/-- The value kinds `osascript.builder._formatvalue` distinguishes
(`osa.py` lines 218-233): `None`, bool, int (the numeric case; the source
also admits floats, which no call site produces), `datetime`, and
strings (an already-valid date literal string is re-quoted as a date). -/
inductive Value where
  | vnone : Value
  | vbool : Bool → Value
  | vint : Int → Value
  | vdatetime : PyDatetime → Value
  | vstr : String → Value
deriving DecidableEq, Repr

/-- Python `str(n)` for an `int`. -/
def pyIntStr (n : Int) : String :=
  if n < 0 then "-" ++ pyNatStr n.natAbs else pyNatStr n.toNat

namespace CMD

/-- `CMD.OPS` (`osa.py` lines 11-15). -/
def CREATE : String := "make new reminder"

def READ : String := "get"

def UPDATE : String := "set"

def DELETE : String := "delete"

end CMD

/-- `DEFAULT.PROPERTIES` (`osa.py` line 29). -/
def DEFAULTPROPERTIES : List String :=
  ["name", "body", "due date", "priority", "completed", "id", "flagged"]

/-- `osascript.builder._formatvalue` (`osa.py` lines 218-233).  The
`datetime` branch calls `OsaDate.FromDatetime`, whose constructor can
raise `ValueError`, hence the `Except`. -/
def formatvalue : Value → Except String String
  | .vnone => .ok "missing value"
  | .vbool b => .ok (if b then "true" else "false")
  | .vint n => .ok (pyIntStr n)
  | .vdatetime d => do
    let od ← OsaDateFromDatetime d
    .ok ("date \"" ++ od ++ "\"")
  | .vstr s =>
    if isosadateStr s then .ok ("date \"" ++ s ++ "\"")
    else .ok ("\"" ++ pyreplace s "\"" "\\\"" ++ "\"")

/-- `osascript.builder._formatproperties` (`osa.py` lines 211-216). -/
def formatproperties (props : List (String × Value)) : Except String String := do
  let parts ← props.mapM fun kv => do
    let f ← formatvalue kv.2
    pure (kv.1 ++ ":" ++ f)
  .ok (String.intercalate ", " parts)

/-- `osascript.builder` state (`osa.py` lines 150-160). -/
structure Builder where
  listclause : Option String
  targetclause : Option String
  propertyname : Option String
  propertyvalue : Option Value
  index : Option String
  properties : List String
  propertyclauses : List (String × Value)
  operation : Option String
  command : Option String
deriving Repr

/-- `osascript.builder.__init__`. -/
def builderInit : Builder :=
  ⟨Option.none, Option.none, Option.none, Option.none, Option.none, [], [],
    Option.none, Option.none⟩

namespace Builder

/-- `builder.create()`. -/
def create (b : Builder) : Builder :=
  { b with operation := some CMD.CREATE }

/-- `builder.read(properties)`: `properties or DEFAULT.PROPERTIES`
(`None` and `[]` are both falsy, so an empty list also selects the
default). -/
def read (b : Builder) (props : List String) : Builder :=
  { b with operation := some CMD.READ,
           properties := if props = [] then DEFAULTPROPERTIES else props }

/-- `builder.update(name, value)`. -/
def update (b : Builder) (name : String) (value : Value) : Builder :=
  { b with operation := some CMD.UPDATE,
           propertyname := some name, propertyvalue := some value }

/-- `builder.delete()`. -/
def delete (b : Builder) : Builder :=
  { b with operation := some CMD.DELETE }

/-- `builder.bylist(name)` (`osa.py` lines 181-188): only acts when the
name is truthy and an operation has already been chosen; `create` gets an
`at list` clause, every other verb an `of list` clause (both carry a
leading space). -/
def bylist (b : Builder) (name : String) : Builder :=
  if name ≠ "" then
    match b.operation with
    | some op =>
      if op = CMD.CREATE then
        { b with listclause := some (" at list \"" ++ name ++ "\"") }
      else
        { b with listclause := some (" of list \"" ++ name ++ "\"") }
    | none => b
  else b

/-- `builder.byname(name)`. -/
def byname (b : Builder) (name : String) : Builder :=
  { b with targetclause := some (" whose name is \"" ++ name ++ "\"") }

/-- The `OsaIndices` member values (`core.py` lines 54-58). -/
def osaIndexValues : List String := ["first", "last", "some", "every"]

/-- `builder.byindex(index)` when the argument is already an
`OsaIndices` member: its `.value` is stored directly. -/
def byindexVal (b : Builder) (v : String) : Builder :=
  { b with index := some v }

/-- `builder.byindex(index)` when the argument is a plain string: the
source does `OsaIndices[index]`, a lookup by *member name* (`"FIRST"`,
…); anything else (including the member values `"first"`, … that the
call sites actually pass) raises `KeyError`, is caught, and falls back to
`OsaIndices.FIRST`. -/
def byindexStr (b : Builder) (s : String) : Builder :=
  let v :=
    if s = "FIRST" then "first"
    else if s = "LAST" then "last"
    else if s = "SOME" then "some"
    else if s = "EVERY" then "every"
    else "first"
  { b with index := some v }

/-- `builder.withproperties(properties)` (the call sites pass a dict and
no kwargs). -/
def withproperties (b : Builder) (props : List (String × Value)) : Builder :=
  { b with propertyclauses := props }

/-- `builder._buildtarget` (`osa.py` lines 235-247): the non-`None`
parts joined by single spaces (the list and name clauses carry their own
leading space, so they produce a double space after joining — reproduced
faithfully). -/
def buildtarget (b : Builder) : String :=
  String.intercalate " "
    ((match b.index with | some i => [i] | none => []) ++ ["reminder"] ++
     (match b.listclause with | some l => [l] | none => []) ++
     (match b.targetclause with | some t => [t] | none => []))

/-- `builder.build()` (`osa.py` lines 249-276) with the default
`application="Reminders"`.  With no operation the builder logs a warning
and returns itself unchanged (no command).  A `None` property value
formats as `missing value`; a `None` property name renders as the string
`"None"` via the f-string. -/
def build (b : Builder) : Except String Builder :=
  match b.operation with
  | none => .ok b
  | some op =>
    if op = CMD.CREATE then do
      let propstr ← formatproperties b.propertyclauses
      .ok { b with command := some ("tell application \"Reminders\" to " ++
              CMD.CREATE ++ b.listclause.getD "" ++
              " with properties \x7b" ++ propstr ++ "\x7d") }
    else if op = CMD.READ then
      .ok { b with command := some ("tell application \"Reminders\" to " ++
              CMD.READ ++ " \x7b" ++ String.intercalate ", " b.properties ++
              "\x7d of " ++ b.buildtarget) }
    else if op = CMD.UPDATE then do
      let value ← formatvalue (b.propertyvalue.getD .vnone)
      .ok { b with command := some ("tell application \"Reminders\" to " ++
              CMD.UPDATE ++ " " ++ b.propertyname.getD "None" ++ " of " ++
              b.buildtarget ++ " to " ++ value) }
    else if op = CMD.DELETE then
      .ok { b with command := some ("tell application \"Reminders\" to " ++
              CMD.DELETE ++ " (" ++ b.buildtarget ++ ")") }
    else
      .ok b

end Builder

/-! ## `Reminder` and the entity mapper (`core.py` lines 61-238) -/

/-- The `Reminder` dataclass (`core.py` lines 61-75), with the dataclass
annotation types. -/
structure Reminder where
  name : String
  body : Option String
  listname : Option String
  duedate : Option PyDatetime
  priority : Int
  completed : Bool
  completiondate : Option PyDatetime
  creationdate : Option PyDatetime
  modificationdate : Option PyDatetime
  id : Option String
  remindmedate : Option PyDatetime
  flagged : Bool
deriving DecidableEq, Repr

/-- A `Reminder` with every optional field at its dataclass default. -/
def baseReminder (name : String) : Reminder :=
  ⟨name, Option.none, Option.none, Option.none, 0, false, Option.none,
    Option.none, Option.none, Option.none, Option.none, false⟩

/-- The TaskWarrior `Task` dataclass (`interface/task.py` lines 17-46),
restricted to the fields the sync subsystem reads or writes (the unused
date/metadata fields are omitted).  `udas` values are modelled as the
strings this subsystem stores there. -/
structure Task where
  id : Option Int
  uuid : Option String
  description : String
  status : String
  due : Option String
  priority : Option String
  project : Option String
  tags : List String
  annotations : List (List (String × String))
  udas : List (String × String)
deriving DecidableEq, Repr

/-- A `Task` with every field at its dataclass default. -/
def baseTask : Task :=
  ⟨Option.none, Option.none, "", "pending", Option.none, Option.none,
    Option.none, [], [], []⟩

/-- Python `d.get(k)` on a dict modelled as an assoc list (with `dictSet`
keys stay unique, so the first match is the binding). -/
def pyget (d : List (String × α)) (k : String) : Option α :=
  (d.find? fun p => p.1 = k).map Prod.snd

/-- Python `%Y`: the year zero-padded to four digits. -/
def pad4 (n : Nat) : String :=
  if n < 10 then "000" ++ pyNatStr n
  else if n < 100 then "00" ++ pyNatStr n
  else if n < 1000 then "0" ++ pyNatStr n
  else pyNatStr n

/-- `Reminder.totask` (`core.py` lines 110-149): map a reminder into the
TaskWarrior domain; priority decodes through the bucket boundaries
`>= 7 -> H`, `>= 4 -> M`, `> 0 -> L` guarded by integer truthiness. -/
def Reminder.totask (r : Reminder) : Task :=
  let annots : List (List (String × String)) :=
    match r.body with
    | some b => if b ≠ "" then [[("description", b)]] else []
    | none => []
  let priority : Option String :=
    if r.priority ≠ 0 then
      if 7 ≤ r.priority then some "H"
      else if 4 ≤ r.priority then some "M"
      else if 0 < r.priority then some "L"
      else Option.none
    else Option.none
  let due : Option String :=
    r.duedate.map fun d => pad4 d.year ++ "-" ++ pad2 d.month ++ "-" ++ pad2 d.day
  let pt : Option String × List String :=
    match r.listname with
    | some l => if l ≠ "" && l ≠ "Reminders" then (some l, [l]) else (Option.none, [])
    | none => (Option.none, [])
  let tags := pt.2 ++ (if r.flagged then ["critical"] else [])
  let udas : List (String × String) :=
    match r.id with
    | some i => if i ≠ "" then [("reminder_id", i)] else []
    | none => []
  { baseTask with
      description := r.name,
      status := if r.completed then "completed" else "pending",
      due := due, priority := priority, project := pt.1, tags := tags,
      annotations := annots, udas := udas }

/-- `Reminder.osaproperties` (`core.py` lines 151-161): the property
payload for external create/update.  `name` always; `body`, `due date`,
`priority`, `flagged` only when truthy; `completed` never. -/
def Reminder.osaproperties (r : Reminder) : List (String × Value) :=
  [("name", Value.vstr r.name)] ++
  (match r.body with
   | some b => if b ≠ "" then [("body", Value.vstr b)] else []
   | none => []) ++
  (match r.duedate with
   | some d => [("due date", Value.vdatetime d)]
   | none => []) ++
  (if r.priority ≠ 0 then [("priority", Value.vint r.priority)] else []) ++
  (if r.flagged then [("flagged", Value.vbool true)] else [])

/-- Number of days in a month of the proleptic Gregorian calendar, as
`datetime.strptime` validates them. -/
def daysInMonth (y m : Nat) : Nat :=
  if m = 2 then
    if y % 4 = 0 && (y % 100 ≠ 0 || y % 400 = 0) then 29 else 28
  else if m = 4 || m = 6 || m = 9 || m = 11 then 30
  else 31

/-- Numeric value of a digit character. -/
def digitVal (c : Char) : Nat := c.toNat - 48

/-- `datetime.strptime(s, "%Y%m%d")` on an 8-character string, returning
`None` for the `ValueError` the caller catches. -/
def pyStrptimeYmd (s : String) : Option PyDatetime :=
  match s.data with
  | [y1, y2, y3, y4, m1, m2, d1, d2] =>
    if [y1, y2, y3, y4, m1, m2, d1, d2].all reDigit then
      let y := ((digitVal y1 * 10 + digitVal y2) * 10 + digitVal y3) * 10 + digitVal y4
      let m := digitVal m1 * 10 + digitVal m2
      let d := digitVal d1 * 10 + digitVal d2
      if 1 ≤ y ∧ 1 ≤ m ∧ m ≤ 12 ∧ 1 ≤ d ∧ d ≤ daysInMonth y m then
        some ⟨y, m, d, 0, 0, 0⟩
      else Option.none
    else Option.none
  | _ => Option.none

/-- `datetime.strptime(s, "%Y-%m-%d")` on a 10-character slice.  (On a
10-character input a successful parse forces the 4-2-2 digit layout, so
the fixed-position decode below agrees with `strptime`.) -/
def pyStrptimeDashed (s : String) : Option PyDatetime :=
  match s.data with
  | [y1, y2, y3, y4, '-', m1, m2, '-', d1, d2] =>
    if [y1, y2, y3, y4, m1, m2, d1, d2].all reDigit then
      let y := ((digitVal y1 * 10 + digitVal y2) * 10 + digitVal y3) * 10 + digitVal y4
      let m := digitVal m1 * 10 + digitVal m2
      let d := digitVal d1 * 10 + digitVal d2
      if 1 ≤ y ∧ 1 ≤ m ∧ m ≤ 12 ∧ 1 ≤ d ∧ d ≤ daysInMonth y m then
        some ⟨y, m, d, 0, 0, 0⟩
      else Option.none
    else Option.none
  | _ => Option.none

/-- The due-date branch of `Reminder.FromTask` (`core.py` lines 172-196):
8-digit compact date, compact-with-`T`-suffix (date part only), or ISO
`YYYY-MM-DD` prefix; anything else, or a parse error, leaves the due date
unset (the exception is caught and logged). -/
def parseTaskDue (s : String) : Option PyDatetime :=
  if s.length = 8 && s.data.all reDigit then
    pyStrptimeYmd s
  else if 10 ≤ s.length && pyContains s "T" then
    let datepart := ((pysplit s "T").headD "")
    if datepart.length = 8 then pyStrptimeYmd datepart else Option.none
  else if 10 ≤ s.length then
    pyStrptimeDashed (s.take 10)
  else Option.none

/-- `Reminder.FromTask` (`core.py` lines 164-217): priority encodes via
`{"H": 9, "M": 5, "L": 1}.get(p, 0)` under string truthiness; an absent
priority stays 0. -/
def Reminder.FromTask (t : Task) : Reminder :=
  let reminderid := pyget t.udas "reminder_id"
  let priority : Int :=
    match t.priority with
    | some p =>
      if p ≠ "" then
        if p = "H" then 9 else if p = "M" then 5 else if p = "L" then 1 else 0
      else 0
    | none => 0
  let duedate : Option PyDatetime :=
    match t.due with
    | some s => if s ≠ "" then parseTaskDue s else Option.none
    | none => Option.none
  let body : Option String :=
    if t.annotations ≠ [] then
      some ((pyget (t.annotations.headD []) "description").getD "")
    else Option.none
  let listname : Option String :=
    match t.project with
    | some p => if p ≠ "" then some p else Option.none
    | none => Option.none
  ⟨t.description, body, listname, duedate, priority, t.status = "completed",
    Option.none, Option.none, Option.none, reminderid, Option.none,
    t.tags.contains "critical"⟩

/-! ## The script executor (`osa.py` lines 38-64) -/

/-- Outcome of one `subprocess.run(["osascript", "-e", command], ...)`
invocation with `check=False`: exit code plus captured text streams. -/
structure ProcResult where
  returncode : Int
  stdout : String
  stderr : String
deriving DecidableEq, Repr

/-- `osascript.execute(command)` (`osa.py` lines 38-64), parameterized by
the `json.loads` collaborator (`none` models `JSONDecodeError`) and by
the spawn outcome (`Except.error` models an exception from
`subprocess.run` itself, caught by the outer handler).  A nonzero exit is
logged and yields `None`; stderr text with a zero exit is only ever
logged as part of that branch and otherwise ignored; empty trimmed stdout
yields the boolean sentinel `True`; stdout that looks structured is
passed to `json.loads`, falling back to the raw trimmed string.  The
function is total: it never propagates an exception. -/
def execute (jsonLoads : String → Option PyVal) (spawn : Except String ProcResult) :
    PyVal :=
  match spawn with
  | .error _ => .pynone
  | .ok r =>
    if r.returncode ≠ 0 then .pynone
    else
      let output := pystrip r.stdout
      if output ≠ "" then
        if pyStartsWith output "\x7b" || pyStartsWith output "[" then
          match jsonLoads output with
          | some v => v
          | none => .pystr output
        else .pystr output
      else .pybool true

/-- `osascript.parse.reminderid(output)` (`osa.py` lines 100-104): pull
the external id out of a create response.  `split("reminder id ")[1]` can
raise `IndexError` when the text contains `"reminder id"` without the
trailing space. -/
def parseReminderid (output : PyVal) : Except String (Option String) :=
  match output with
  | .pystr s =>
    if s ≠ "" && pyContains s "reminder id" then
      match (pysplit s "reminder id ").get? 1 with
      | some part => .ok (some (pystrip part))
      | none => .error "IndexError: list index out of range"
    else .ok Option.none
  | _ => .ok Option.none

/-- The `Reminder` dataclass field names (`core.py` lines 64-75). -/
def reminderFieldNames : List String :=
  ["name", "body", "listname", "duedate", "priority", "completed",
   "completiondate", "creationdate", "modificationdate", "id",
   "remindmedate", "flagged"]

/-- `"".join(key.split())`: removing every whitespace character. -/
def catkey (k : String) : String :=
  ⟨k.data.filter fun c => !pyws c⟩

/-- `Reminder.FromPropertiesDict(properties)` (`core.py` lines 219-238).
The bulk parser only ever supplies string values, so `value is not None`
always holds; a value matching the date pattern is routed through
`OsaDate(value).todatetime()`, which unconditionally raises
`NotImplementedError` (`core.py` lines 24-25).  Other values reach the
dataclass constructor as raw strings regardless of the field's
annotation: the string-annotated fields store them; the bool-annotated
fields (`completed`, `flagged`) are consumed downstream only through
truthiness, which we apply here; the int/datetime-annotated fields
(`priority`, the date fields) would hold strings the downstream
comparisons cannot use — no claim evaluates them, and they are left at
their defaults here. -/
def FromPropertiesDict (props : List (String × String)) : Except String Reminder := do
  let assigns ← props.foldlM
    (fun (acc : List (String × String)) kv => do
      let key :=
        if reminderFieldNames.contains kv.1 then some kv.1
        else if reminderFieldNames.contains (catkey kv.1) then some (catkey kv.1)
        else Option.none
      match key with
      | some k =>
        if isosadateStr kv.2 then throw "NotImplementedError" else pure (dictSet acc k kv.2)
      | none => pure acc)
    []
  match pyget assigns "name" with
  | none => .error "TypeError: missing required argument name"
  | some nm =>
    .ok { baseReminder nm with
            body := pyget assigns "body",
            listname := pyget assigns "listname",
            id := pyget assigns "id",
            completed := (pyget assigns "completed").getD "" ≠ "",
            flagged := (pyget assigns "flagged").getD "" ≠ "" }

/-- `osascript.getreminders(listname, properties)` (`osa.py` lines
82-94), parameterized by the executor's result for the built read
command: a falsy result yields `[]`; otherwise the raw output is decoded
and each record dict is turned into a `Reminder`.  Exceptions raised by
the decoding propagate out of `getreminders`, which has no handler. -/
def getremindersFrom (result : PyVal) (properties : List String) :
    Except String (List Reminder) :=
  if !result.truthy then .ok []
  else do
    let parsed ← reminderproperties result
      (if properties = [] then DEFAULTPROPERTIES else properties)
    parsed.mapM FromPropertiesDict

/-! ## The sync engine (`manager.py`)

The external scripting host (the Reminders application reached through
one process spawn per command) is abstract: a `Host` maps a command
string and an external-world state to a new state and a spawn outcome.
The sync functions below are the source's loops with the host left as a
parameter; writing to the TaskWarrior store during import is likewise a
collaborator (`DomainCollab`). -/

/-- One blocking spawn of the external scripting host per command. -/
structure Host (σ : Type) where
  run : σ → String → σ × Except String ProcResult

/-- `builder.execute()` (`osa.py` lines 278-282) combined with
`osascript.execute`: no built command logs a warning and yields `None`;
otherwise the command is spawned and the outcome postprocessed. -/
def cmdExecute (H : Host σ) (jl : String → Option PyVal) (s : σ) (b : Builder) :
    σ × PyVal :=
  match b.command with
  | none => (s, .pynone)
  | some c =>
    let (s', pr) := H.run s c
    (s', execute jl pr)

/-- The shared `if self.listname: builder = builder.bylist(self.listname)`
step of the manager's create and update paths. -/
def lnSelect (ln : Option String) (b0 : Builder) : Builder :=
  match ln with
  | some l => if l ≠ "" then b0.bylist l else b0
  | none => b0

/-- The per-property loop of `ReminderSync._updatereminder` (`manager.py`
lines 40-52): one `set` command per payload entry, with the
`first reminder` target rewritten to `reminder id <id>`; a falsy result
flips `success` to `False` but the loop continues; an exception (e.g.
`ValueError` from formatting a date value) aborts the loop and is caught
by the surrounding handler, returning `False`. -/
def updateRemProps (H : Host σ) (jl : String → Option PyVal) (ln : Option String)
    (rid : String) : List (String × Value) → σ → Bool → σ × Bool
  | [], s, ok => (s, ok)
  | (p, v) :: rest, s, ok =>
    let b1 := lnSelect ln ((builderInit.update p v).byindexStr "first")
    match b1.build with
    | .error _ => (s, false)
    | .ok b =>
      let b' := { b with
        command := b.command.map fun c =>
          pyreplace c "first reminder" ("reminder id " ++ rid) }
      let (s', out) := cmdExecute H jl s b'
      updateRemProps H jl ln rid rest s' (ok && out.truthy)

/-- `ReminderSync._updatereminder(reminder)` (`manager.py` lines 31-57):
no (truthy) external id means `False` immediately; otherwise each payload
property is written in turn. -/
def updatereminderM (H : Host σ) (jl : String → Option PyVal) (ln : Option String)
    (r : Reminder) (s : σ) : σ × Bool :=
  match r.id with
  | none => (s, false)
  | some rid =>
    if rid = "" then (s, false)
    else updateRemProps H jl ln rid r.osaproperties s true

/-- `ReminderSync._createreminder(reminder)` (`manager.py` lines 59-73):
build the create command, run it, and parse the assigned external id out
of the response; any exception is caught and yields `None`. -/
def createreminderM (H : Host σ) (jl : String → Option PyVal) (ln : Option String)
    (r : Reminder) (s : σ) : σ × Option String :=
  let b1 := lnSelect ln builderInit.create
  match (b1.withproperties r.osaproperties).build with
  | .error _ => (s, Option.none)
  | .ok b =>
    let (s', out) := cmdExecute H jl s b
    match parseReminderid out with
    | .error _ => (s', Option.none)
    | .ok rid => (s', rid)

/-- The per-task loop of `ReminderSync._exports` (`manager.py` lines
137-151): skip tasks with a falsy description; a stored external id that
is present in the snapshot of external ids takes the update path and is
counted `updated` regardless of the update's outcome; otherwise the
create path is taken and counted `created` only when a truthy new id came
back, in which case the id is written onto the in-memory task (returned
here as the final component; the source never persists it). -/
def exportsLoop (H : Host σ) (jl : String → Option PyVal) (ln : Option String)
    (extantids : List String) : List Task → σ → Nat × Nat × σ × List Task
  | [], s => (0, 0, s, [])
  | t :: rest, s =>
    if t.description = "" then
      let (c, u, s', ts) := exportsLoop H jl ln extantids rest s
      (c, u, s', t :: ts)
    else
      let rid := pyget t.udas "reminder_id"
      let found := match rid with
        | some ridv => ridv ≠ "" && extantids.contains ridv
        | none => false
      let rem := Reminder.FromTask t
      if found then
        let (s', _ok) := updatereminderM H jl ln rem s
        let (c, u, s'', ts) := exportsLoop H jl ln extantids rest s'
        (c, u + 1, s'', t :: ts)
      else
        let (s', newid) := createreminderM H jl ln rem s
        match newid with
        | some nid =>
          if nid ≠ "" then
            let t' := { t with udas := dictSet t.udas "reminder_id" nid }
            let (c, u, s'', ts) := exportsLoop H jl ln extantids rest s'
            (c + 1, u, s'', t' :: ts)
          else
            let (c, u, s'', ts) := exportsLoop H jl ln extantids rest s'
            (c, u, s'', t :: ts)
        | none =>
          let (c, u, s'', ts) := exportsLoop H jl ln extantids rest s'
          (c, u, s'', t :: ts)

/-- `ReminderSync._exports(filterargs)` (`manager.py` lines 125-155).
`tasks` stands for the `tasklist(filterargs)` result; `fetchIds` models
the `osascript.getreminders` fetch followed by the id-set comprehension
`{r.id for r in extantreminders if r.id}` — the external store's current
truthy id set.  Returned are `(created, updated, final world, in-memory
tasks after the run)`; the source's return value is `created +
updated`. -/
def exportsM (H : Host σ) (jl : String → Option PyVal) (fetchIds : σ → List String)
    (ln : Option String) (tasks : List Task) (s : σ) : Nat × Nat × σ × List Task :=
  match tasks with
  | [] => (0, 0, s, [])
  | _ => exportsLoop H jl ln (fetchIds s) tasks s

/-- Writes to the TaskWarrior store during import: `_createtask` /
`_updatetask` (`manager.py` lines 75-122), abstracted to state
transformers returning a success flag. -/
structure DomainCollab (δ : Type) where
  createtask : δ → Task → δ × Bool
  updatetask : δ → Task → δ × Bool

/-- The per-reminder loop of `ReminderSync._imports` (`manager.py` lines
176-187): skip records with a falsy external id; a record whose id is in
the reverse map updates the matched task (reusing its task id) and counts
`updated`; otherwise a task is created and counts `created` — in both
cases regardless of the operation's outcome. -/
def importsLoop (dc : DomainCollab δ) (extantids : List (String × Option Int)) :
    List Reminder → δ → Nat × Nat × δ
  | [], d => (0, 0, d)
  | r :: rest, d =>
    match r.id with
    | none => importsLoop dc extantids rest d
    | some rid =>
      if rid = "" then importsLoop dc extantids rest d
      else
        let task := r.totask
        match extantids.find? fun p => p.1 = rid with
        | some p =>
          let (d', _ok) := dc.updatetask d { task with id := p.2 }
          let (c, u, d'') := importsLoop dc extantids rest d'
          (c, u + 1, d'')
        | none =>
          let (d', _ok) := dc.createtask d task
          let (c, u, d'') := importsLoop dc extantids rest d'
          (c + 1, u, d'')

/-- `ReminderSync._imports(completed)` (`manager.py` lines 157-190).
`reminders` stands for the `osascript.getreminders` result and `tasks`
for `tasklist(includeall=True)`; completed records are dropped unless
requested, the reverse map external id → task id is built, and the loop
runs.  Returned are `(created, updated, final domain store)`. -/
def importsM (dc : DomainCollab δ) (reminders : List Reminder) (completed : Bool)
    (tasks : List Task) (d : δ) : Nat × Nat × δ :=
  match reminders with
  | [] => (0, 0, d)
  | _ =>
    let rems := if !completed then reminders.filter (fun r => !r.completed) else reminders
    let extantids := tasks.foldl
      (fun (acc : List (String × Option Int)) t =>
        match pyget t.udas "reminder_id" with
        | some v => if v ≠ "" then dictSet acc v t.id else acc
        | none => acc)
      []
    importsLoop dc extantids rems d

/-! ## A specification model of the external store, for end-to-end runs -/

/-- Modelled from the spec: the state of the external reminder store as
the export path observes it — the set of assigned external ids plus a
fresh-id counter.  (The store itself is the Reminders application,
outside this repository; §3 and §6 of the spec describe it as assigning
an opaque external id on create and exposing the current id set to
`getRecords`.) -/
structure ExtStore where
  ids : List String
  counter : Nat
deriving DecidableEq, Repr

/-- Modelled from the spec: the external scripting host.  A create
command assigns a fresh external id, appends it to the store and reports
`reminder id <id>` on stdout; every other command (the `set` writes the
export path issues) is a pure side effect answered with a zero exit and
empty stdout — the success shape §4.2 of the spec describes for
side-effecting calls. -/
def specHost : Host ExtStore :=
  ⟨fun s c =>
    if hasPrefixCl ("tell application \"Reminders\" to make new reminder").data
        c.data then
      let fresh := "RID" ++ pyNatStr s.counter
      (⟨s.ids ++ [fresh], s.counter + 1⟩, .ok ⟨0, "reminder id " ++ fresh, ""⟩)
    else (s, .ok ⟨0, "", ""⟩)⟩

/-! ## Concrete instances and statement-level predicates -/

/-- A `json.loads` collaborator that always raises `JSONDecodeError`
(AppleScript list output is not valid JSON). -/
def jlNone : String → Option PyVal := fun _ => Option.none

/-- The never-before-synced domain record of the spec's export
scenario. -/
def buyMilkTask : Task :=
  { baseTask with description := "Buy milk" }

/-- A host on which every spawn fails with a nonzero exit. -/
def noHost : Host Unit :=
  ⟨fun _ _ => ((), .ok ⟨1, "", "execution error"⟩)⟩

/-- A host on which `set` commands fail with a nonzero exit while every
other command succeeds with empty output. -/
def updFailHost : Host Unit :=
  ⟨fun _ c =>
    if hasPrefixCl ("tell application \"Reminders\" to set").data c.data then
      ((), .ok ⟨1, "", "execution error"⟩)
    else ((), .ok ⟨0, "", ""⟩)⟩

/-- A task already carrying the stored external id `"R"`. -/
def taskWithRid : Task :=
  { baseTask with description := "x", udas := [("reminder_id", "R")] }

/-- A TaskWarrior collaborator whose create and modify both fail. -/
def dcFail : DomainCollab Unit :=
  ⟨fun _ _ => ((), false), fun _ _ => ((), false)⟩

/-- The condition under which `_exports` takes the update path for a
task: truthy description and a truthy stored external id present in the
snapshot of external ids. -/
def updatePathB (extantids : List String) (t : Task) : Bool :=
  t.description ≠ "" &&
    (match pyget t.udas "reminder_id" with
     | some r => r ≠ "" && extantids.contains r
     | none => false)

/-- A reminder record carrying a truthy external id. -/
def truthyIdB (r : Reminder) : Bool :=
  match r.id with
  | some i => i ≠ ""
  | none => false

/-- The export payload of a task formats without raising (every value of
`osaproperties` passes `_formatvalue`). -/
def buildsOK (t : Task) : Bool :=
  match formatproperties (Reminder.FromTask t).osaproperties with
  | .ok _ => true
  | .error _ => false

/-! # Theorems -/

/-- C1: the spec's bulk-parsing scenario fails on the code.  On the raw
input `Buy milk, false, date Monday, April 22, 2024 at 6:00:00 PM,
id-123` with properties `[name, completed, due date, id]` the
inside-date-literal flag never becomes true — it is set only when a `'d'`
character is read while the accumulated field text strips to exactly
`"date"`, and after `"date "` the next characters are `M`, `o`, … — so
the commas inside the date literal are treated as field separators.  The
scan yields six fields, which chunk into one record with the wrong field
values (`due date = "date Monday"`, `id = "April 22"`) and a discarded
remainder, instead of the record the claim states. -/
theorem C1_scenario_parse_divergence :
    scanvalues "Buy milk, false, date Monday, April 22, 2024 at 6:00:00 PM, id-123" =
      ["Buy milk", "false", "date Monday", "April 22", "2024 at 6:00:00 PM",
       "id-123"] ∧
    reminderproperties
        (.pystr "Buy milk, false, date Monday, April 22, 2024 at 6:00:00 PM, id-123")
        ["name", "completed", "due date", "id"] =
      .ok [[("name", "Buy milk"), ("completed", "false"),
            ("due date", "date Monday"), ("id", "April 22")]] ∧
    reminderproperties
        (.pystr "Buy milk, false, date Monday, April 22, 2024 at 6:00:00 PM, id-123")
        ["name", "completed", "due date", "id"] ≠
      .ok [[("name", "Buy milk"), ("completed", "false"),
            ("due date", "Monday, April 22, 2024 at 6:00:00 PM"),
            ("id", "id-123")]] := by
  refine ⟨by decide, by decide, by decide⟩

/-- C3: when the read command succeeds with empty trimmed stdout the
executor returns the boolean sentinel `True`; `getreminders` does not
treat that as "nothing found": the sentinel is truthy, so it is passed
to the bulk decoder, whose guard compares it with the *string* `"True"`
(false for the boolean), and the `for char in output` iteration then
raises `TypeError`, which escapes `getreminders` (it has no handler). -/
theorem C3_true_sentinel_typeerror :
    execute jlNone (.ok ⟨0, "", ""⟩) = .pybool true ∧
    PyVal.truthy (.pybool true) = true ∧
    getremindersFrom (.pybool true) [] =
      .error "TypeError: argument of type is not iterable" := by
  refine ⟨by decide, by decide, by decide⟩

/-- C5 counterexample: a spawn with exit code 0 and non-empty stderr is
*not* treated as failure — the executor returns the trimmed stdout, not
the `None` sentinel (the source only checks `returncode != 0`). -/
theorem C5_counterexample_stderr_ignored :
    execute jlNone (.ok ⟨0, "out", "warning"⟩) = .pystr "out" ∧
    execute jlNone (.ok ⟨0, "out", "warning"⟩) ≠ .pynone := by
  refine ⟨by decide, by decide⟩

/-- C2 counterexample: exporting the same one-task domain twice without
persisting the id assigned by the first run yields `created = 1,
updated = 0` on the *second* run as well (the claim states `created = 0,
updated = 1`), and the external id set grows from one id to two. -/
theorem C2_counterexample_reexport_recreates :
    exportsM specHost jlNone ExtStore.ids Option.none [buyMilkTask] ⟨[], 0⟩ =
      (1, 0, ⟨["RID0"], 1⟩,
       [{ buyMilkTask with udas := [("reminder_id", "RID0")] }]) ∧
    exportsM specHost jlNone ExtStore.ids Option.none [buyMilkTask] ⟨["RID0"], 1⟩ =
      (1, 0, ⟨["RID0", "RID1"], 2⟩,
       [{ buyMilkTask with udas := [("reminder_id", "RID1")] }]) := by
  refine ⟨by decide, by decide⟩

/-- C4 counterexample: a record whose update operation fails is *not*
excluded from the affected count.  On a host where every `set` command
exits nonzero, `_updatereminder` returns `False`, yet `_exports` counts
the record as updated (the loop ignores the result), returning an
affected count of 1 where the claim requires 0. -/
theorem C4_counterexample_failed_update_counted :
    updatereminderM updFailHost jlNone Option.none
        (Reminder.FromTask taskWithRid) () = ((), false) ∧
    exportsM updFailHost jlNone (fun _ => ["R"]) Option.none [taskWithRid] () =
      (0, 1, (), [taskWithRid]) := by
  refine ⟨by decide, by decide⟩

/-- C6: the priority bucket maps.  Encoding (`Reminder.FromTask`) sends
`H` to 9, `M` to 5, `L` to 1 and an absent code to 0; decoding
(`Reminder.totask`) sends `p ≥ 7` to `H`, `4 ≤ p < 7` to `M`,
`0 < p < 4` to `L`, and 0 to no code. -/
theorem C6_priority_buckets (t : Task) (r : Reminder) :
    (t.priority = some "H" → (Reminder.FromTask t).priority = 9) ∧
    (t.priority = some "M" → (Reminder.FromTask t).priority = 5) ∧
    (t.priority = some "L" → (Reminder.FromTask t).priority = 1) ∧
    (t.priority = Option.none → (Reminder.FromTask t).priority = 0) ∧
    (7 ≤ r.priority → r.totask.priority = some "H") ∧
    (4 ≤ r.priority → r.priority < 7 → r.totask.priority = some "M") ∧
    (0 < r.priority → r.priority < 4 → r.totask.priority = some "L") ∧
    (r.priority = 0 → r.totask.priority = Option.none) := by
  refine ⟨fun h => ?_, fun h => ?_, fun h => ?_, fun h => ?_,
          fun h => ?_, fun h h' => ?_, fun h h' => ?_, fun h => ?_⟩
  · simp only [Reminder.FromTask, h] <;> decide
  · simp only [Reminder.FromTask, h] <;> decide
  · simp only [Reminder.FromTask, h] <;> decide
  · simp only [Reminder.FromTask, h] <;> decide
  · simp only [Reminder.totask]; split_ifs <;> first | rfl | omega
  · simp only [Reminder.totask]; split_ifs <;> first | rfl | omega
  · simp only [Reminder.totask]; split_ifs <;> first | rfl | omega
  · simp only [Reminder.totask, h] <;> decide

/-- C6 witness: the bucket maps evaluated at the boundary inputs 0, 1,
3, 4, 6, 7, 9 and at each priority code. -/
theorem C6_priority_buckets_witness :
    (Reminder.FromTask { baseTask with priority := some "H" }).priority = 9 ∧
    (Reminder.FromTask { baseTask with priority := some "M" }).priority = 5 ∧
    (Reminder.FromTask { baseTask with priority := some "L" }).priority = 1 ∧
    (Reminder.FromTask baseTask).priority = 0 ∧
    ({ baseReminder "x" with priority := (0 : Int) }).totask.priority = Option.none ∧
    ({ baseReminder "x" with priority := (1 : Int) }).totask.priority = some "L" ∧
    ({ baseReminder "x" with priority := (3 : Int) }).totask.priority = some "L" ∧
    ({ baseReminder "x" with priority := (4 : Int) }).totask.priority = some "M" ∧
    ({ baseReminder "x" with priority := (6 : Int) }).totask.priority = some "M" ∧
    ({ baseReminder "x" with priority := (7 : Int) }).totask.priority = some "H" ∧
    ({ baseReminder "x" with priority := (9 : Int) }).totask.priority = some "H" := by
  refine ⟨(C6_priority_buckets _ (baseReminder "x")).1 rfl,
          (C6_priority_buckets _ (baseReminder "x")).2.1 rfl,
          (C6_priority_buckets _ (baseReminder "x")).2.2.1 rfl,
          (C6_priority_buckets _ (baseReminder "x")).2.2.2.1 rfl,
          (C6_priority_buckets baseTask _).2.2.2.2.2.2.2 (by decide),
          (C6_priority_buckets baseTask _).2.2.2.2.2.2.1 (by decide) (by decide),
          (C6_priority_buckets baseTask _).2.2.2.2.2.2.1 (by decide) (by decide),
          (C6_priority_buckets baseTask _).2.2.2.2.2.1 (by decide) (by decide),
          (C6_priority_buckets baseTask _).2.2.2.2.2.1 (by decide) (by decide),
          (C6_priority_buckets baseTask _).2.2.2.2.1 (by decide),
          (C6_priority_buckets baseTask _).2.2.2.2.1 (by decide)⟩

/-! ### Facts about the decimal rendering `pyNatStr` -/

theorem pyNatDigitsGo_congr :
    ∀ f1 f2 n : Nat, n ≤ f1 → n ≤ f2 → pyNatDigitsGo f1 n = pyNatDigitsGo f2 n := by
  intro f1
  induction f1 with
  | zero =>
    intro f2 n h1 _
    have hn : n = 0 := by omega
    subst hn
    cases f2 <;> rfl
  | succ f ih =>
    intro f2 n h1 h2
    cases n with
    | zero => cases f2 <;> rfl
    | succ m =>
      cases f2 with
      | zero => omega
      | succ f2' =>
        show pyNatDigitsGo f ((m + 1) / 10) ++ _ =
          pyNatDigitsGo f2' ((m + 1) / 10) ++ _
        rw [ih f2' ((m + 1) / 10) (by omega) (by omega)]

theorem pyNatDigits_unfold (n : Nat) (h : n ≠ 0) :
    pyNatDigits n = pyNatDigits (n / 10) ++ [decDigits.getD (n % 10) '0'] := by
  obtain ⟨m, rfl⟩ : ∃ m, n = m + 1 := ⟨n - 1, by omega⟩
  show pyNatDigitsGo m ((m + 1) / 10) ++ _ = pyNatDigitsGo ((m + 1) / 10) ((m + 1) / 10) ++ _
  rw [pyNatDigitsGo_congr m ((m + 1) / 10) ((m + 1) / 10) (by omega) le_rfl]

theorem decDigits_getD_digit : ∀ i, reDigit (decDigits.getD i '0') = true := by
  intro i
  match i with
  | 0 | 1 | 2 | 3 | 4 | 5 | 6 | 7 | 8 | 9 => decide
  | n + 10 => simp [decDigits, List.getD]; decide

theorem pyNatDigits_all_digit (n : Nat) :
    ∀ c ∈ pyNatDigits n, reDigit c = true := by
  induction n using Nat.strong_induction_on with
  | _ n ih =>
    rcases eq_or_ne n 0 with rfl | h
    · intro c hc; simp [pyNatDigits, pyNatDigitsGo] at hc
    · rw [pyNatDigits_unfold n h]
      intro c hc
      rcases List.mem_append.1 hc with hc | hc
      · exact ih (n / 10) (Nat.div_lt_self (by omega) (by omega)) c hc
      · rcases List.mem_singleton.1 hc with rfl
        exact decDigits_getD_digit _

theorem pyNatDigits_length_succ (n : Nat) (h : n ≠ 0) :
    (pyNatDigits n).length = (pyNatDigits (n / 10)).length + 1 := by
  rw [pyNatDigits_unfold n h]; simp

theorem pyNatDigits_length1 {n : Nat} (h1 : 1 ≤ n) (h2 : n ≤ 9) :
    (pyNatDigits n).length = 1 := by
  rw [pyNatDigits_length_succ n (by omega)]
  have h3 : n / 10 = 0 := by omega
  rw [h3]
  rfl

theorem pyNatDigits_length2 {n : Nat} (h1 : 10 ≤ n) (h2 : n ≤ 99) :
    (pyNatDigits n).length = 2 := by
  rw [pyNatDigits_length_succ n (by omega)]
  rw [pyNatDigits_length1 (n := n / 10) (by omega) (by omega)]

theorem pyNatDigits_length3 {n : Nat} (h1 : 100 ≤ n) (h2 : n ≤ 999) :
    (pyNatDigits n).length = 3 := by
  rw [pyNatDigits_length_succ n (by omega)]
  rw [pyNatDigits_length2 (n := n / 10) (by omega) (by omega)]

theorem pyNatDigits_length4 {n : Nat} (h1 : 1000 ≤ n) (h2 : n ≤ 9999) :
    (pyNatDigits n).length = 4 := by
  rw [pyNatDigits_length_succ n (by omega)]
  rw [pyNatDigits_length3 (n := n / 10) (by omega) (by omega)]

theorem pyNatStr_data (n : Nat) :
    (pyNatStr n).data = if n = 0 then ['0'] else pyNatDigits n := by
  unfold pyNatStr
  split_ifs <;> rfl

theorem pyNatStr_all_digit (n : Nat) :
    ∀ c ∈ (pyNatStr n).data, reDigit c = true := by
  rw [pyNatStr_data]
  split_ifs with h
  · intro c hc; rcases List.mem_singleton.1 hc with rfl; decide
  · exact pyNatDigits_all_digit n

theorem pyNatStr_length1 {n : Nat} (h2 : n ≤ 9) :
    (pyNatStr n).data.length = 1 := by
  rw [pyNatStr_data]
  split_ifs with h
  · rfl
  · rw [pyNatDigits_length1 (by omega) h2]

theorem pyNatStr_length2 {n : Nat} (h1 : 10 ≤ n) (h2 : n ≤ 99) :
    (pyNatStr n).data.length = 2 := by
  rw [pyNatStr_data, if_neg (by omega)]
  exact pyNatDigits_length2 h1 h2

theorem pyNatStr_length4 {n : Nat} (h1 : 1000 ≤ n) (h2 : n ≤ 9999) :
    (pyNatStr n).data.length = 4 := by
  rw [pyNatStr_data, if_neg (by omega)]
  exact pyNatDigits_length4 h1 h2

theorem pyNatStr_ne_nil (n : Nat) : (pyNatStr n).data ≠ [] := by
  rw [pyNatStr_data]
  split_ifs with h
  · simp
  · have := pyNatDigits_length_succ n h
    intro hc
    rw [hc] at this
    simp at this

/-- The character classes are disjoint from `'m'`, so no decimal
rendering (with or without sign) equals `missing value`. -/
theorem pyIntStr_ne_missing (n : Int) : pyIntStr n ≠ "missing value" := by
  intro h
  have h2 := congrArg String.data h
  unfold pyIntStr at h2
  split_ifs at h2
  · rw [String.data_append] at h2
    exact absurd (List.head_eq_of_cons_eq h2) (by decide)
  · obtain ⟨c, t, hct⟩ : ∃ c t, (pyNatStr n.toNat).data = c :: t := by
      rcases hd : (pyNatStr n.toNat).data with _ | ⟨c, t⟩
      · exact absurd hd (pyNatStr_ne_nil _)
      · exact ⟨c, t, rfl⟩
    rw [hct] at h2
    have hc : reDigit c = true := by
      apply pyNatStr_all_digit n.toNat
      rw [hct]; exact List.mem_cons_self _ _
    have : c = 'm' := List.head_eq_of_cons_eq h2
    rw [this] at hc
    exact absurd hc (by decide)

/-- A string whose first character is not `'m'` is never the bare token
`missing value`. -/
theorem ne_missing_of_head (s : String) (h : s.data.head? ≠ some 'm') :
    s ≠ "missing value" :=
  fun he => h (by rw [he]; rfl)

/-- A string beginning with a double quote is never the bare token
`missing value`. -/
theorem quote_append_ne_missing (x y : String) :
    ("\"" ++ x ++ y) ≠ "missing value" :=
  ne_missing_of_head _
    (by rw [show (("\"" : String) ++ x ++ y).data.head? = some '"' from rfl]; decide)

/-- A string beginning with `date "` is never the bare token
`missing value`. -/
theorem date_append_ne_missing (x y : String) :
    ("date \"" ++ x ++ y) ≠ "missing value" :=
  ne_missing_of_head _
    (by rw [show (("date \"" : String) ++ x ++ y).data.head? = some 'd' from rfl]
        decide)

theorem formatvalue_vstr_ne_missing (s : String) :
    formatvalue (Value.vstr s) ≠ .ok "missing value" := by
  simp only [formatvalue]
  split_ifs
  · exact fun h => date_append_ne_missing _ _ (by injection h)
  · exact fun h => quote_append_ne_missing _ _ (by injection h)

theorem formatvalue_vint_ne_missing (n : Int) :
    formatvalue (Value.vint n) ≠ .ok "missing value" := by
  simp only [formatvalue]
  exact fun h => pyIntStr_ne_missing n (by injection h)

theorem formatvalue_vdatetime_ne_missing (d : PyDatetime) :
    formatvalue (Value.vdatetime d) ≠ .ok "missing value" := by
  simp only [formatvalue]
  cases h : OsaDateFromDatetime d with
  | error e => simp [h, Bind.bind, Except.bind]
  | ok od =>
    simp only [h, Bind.bind, Except.bind]
    exact fun hc => date_append_ne_missing _ _ (by injection hc)

theorem formatvalue_vbool_ne_missing (b : Bool) :
    formatvalue (Value.vbool b) ≠ .ok "missing value" := by
  cases b <;> decide

/-- C10: the external property payload (`Reminder.osaproperties`) always
carries `name`; carries `body`, `due date`, `priority`, `flagged` exactly
when those values are truthy; never carries `completed`; and none of its
values formats to the `missing value` token, so the per-property `set`
commands issued by `_updatereminder` never clear a field and export never
touches an external record's completion state. -/
theorem C10_osaproperties_payload (r : Reminder) :
    pyget r.osaproperties "name" = some (Value.vstr r.name) ∧
    "completed" ∉ r.osaproperties.map Prod.fst ∧
    ("body" ∈ r.osaproperties.map Prod.fst ↔ ∃ b, r.body = some b ∧ b ≠ "") ∧
    ("due date" ∈ r.osaproperties.map Prod.fst ↔ r.duedate.isSome = true) ∧
    ("priority" ∈ r.osaproperties.map Prod.fst ↔ r.priority ≠ 0) ∧
    ("flagged" ∈ r.osaproperties.map Prod.fst ↔ r.flagged = true) ∧
    ∀ kv ∈ r.osaproperties, formatvalue kv.2 ≠ .ok "missing value" := by
  obtain ⟨nm, body, ln, dd, pr, cp, c1, c2, c3, rid, rm, fl⟩ := r
  simp only [Reminder.osaproperties]
  rcases body with _ | b <;> rcases dd with _ | d <;> cases fl <;>
    by_cases hpr : pr = 0 <;>
    (try by_cases hb : b = "") <;>
    simp only [hpr, reduceIte] <;>
    refine ⟨?_, ?_, ?_, ?_, ?_, ?_, ?_⟩ <;>
    simp_all [pyget, formatvalue_vstr_ne_missing, formatvalue_vint_ne_missing,
      formatvalue_vdatetime_ne_missing, formatvalue_vbool_ne_missing]

/-- C5 (amended): the executor treats a nonzero exit code — but not
stderr text by itself — as failure, returning the `None` sentinel; an
exception from the spawn itself is caught and also yields `None` (the
embedding is a total function: nothing propagates); with a zero exit the
trimmed stdout is processed regardless of stderr. -/
theorem C5_amended_failure_handling (jl : String → Option PyVal) (r : ProcResult)
    (msg : String) :
    (r.returncode ≠ 0 → execute jl (.ok r) = .pynone) ∧
    execute jl (.error msg) = .pynone ∧
    (r.returncode = 0 → pystrip r.stdout ≠ "" →
      pyStartsWith (pystrip r.stdout) "\x7b" = false →
      pyStartsWith (pystrip r.stdout) "[" = false →
      execute jl (.ok r) = .pystr (pystrip r.stdout)) := by
  refine ⟨fun h => ?_, rfl, fun h0 h1 h2 h3 => ?_⟩
  · simp [execute, h]
  · simp [execute, h0, h1, h2, h3]

/-- C5 witness: the amended executor contract evaluated at a failing
spawn, a raising spawn, and a zero-exit spawn with stderr text. -/
theorem C5_amended_witness :
    execute jlNone (.ok ⟨3, "x", "boom"⟩) = .pynone ∧
    execute jlNone (.error "oserror") = .pynone ∧
    execute jlNone (.ok ⟨0, " done ", "warning"⟩) = .pystr (pystrip " done ") := by
  refine ⟨(C5_amended_failure_handling jlNone ⟨3, "x", "boom"⟩ "z").1 (by decide),
          (C5_amended_failure_handling jlNone ⟨0, "", ""⟩ "oserror").2.1,
          (C5_amended_failure_handling jlNone ⟨0, " done ", "warning"⟩ "z").2.2
            (by decide) (by decide) (by decide) (by decide)⟩

/-! ### The chunking step of the bulk decoder -/

theorem pychunksGo_congr (p : Nat) :
    ∀ f1 f2 (v : List α), v.length ≤ f1 → v.length ≤ f2 →
      pychunksGo p f1 v = pychunksGo p f2 v := by
  intro f1
  induction f1 with
  | zero =>
    intro f2 v h1 _
    have : v = [] := List.eq_nil_of_length_eq_zero (by omega)
    subst this
    cases f2 <;> rfl
  | succ f ih =>
    intro f2 v h1 h2
    rcases v with _ | ⟨a, rest⟩
    · cases f2 <;> rfl
    · cases f2 with
      | zero => simp at h2
      | succ f2' =>
        show (if p = 0 then [] else _) = (if p = 0 then [] else _)
        split_ifs with hp
        · rfl
        · show _ :: pychunksGo p f ((a :: rest).drop p) =
            _ :: pychunksGo p f2' ((a :: rest).drop p)
          rw [ih f2' ((a :: rest).drop p)
                (by simp only [List.length_drop, List.length_cons] at *; omega)
                (by simp only [List.length_drop, List.length_cons] at *; omega)]

theorem pychunks_cons (p : Nat) (hp : p ≠ 0) (v : List α) (hv : v ≠ []) :
    pychunks p v = v.take p :: pychunks p (v.drop p) := by
  rcases v with _ | ⟨a, rest⟩
  · exact absurd rfl hv
  · show pychunksGo p (rest.length + 1) (a :: rest) = _
    show (if p = 0 then [] else _) = _
    rw [if_neg hp]
    unfold pychunks
    congr 1
    exact pychunksGo_congr p rest.length ((a :: rest).drop p).length _
      (by simp only [List.length_drop, List.length_cons]; omega) le_rfl

/-- The complete chunks kept by the bulk decoder are exactly the
`⌊|V| / n⌋` sequential windows of width `n`. -/
theorem pychunks_filter_eq (n : Nat) (hn : n ≠ 0) :
    ∀ (L : Nat) (V : List α), V.length ≤ L →
      (pychunks n V).filter (fun c => c.length = n) =
        (List.range (V.length / n)).map fun k => (V.drop (k * n)).take n := by
  intro L
  induction L with
  | zero =>
    intro V hV
    have hV0 : V = [] := List.eq_nil_of_length_eq_zero (by omega)
    subst hV0
    simp [pychunks, pychunksGo, Nat.zero_div]
  | succ L ih =>
    intro V hV
    rcases V with _ | ⟨a, rest⟩
    · simp [pychunks, pychunksGo, Nat.zero_div]
    · rw [pychunks_cons n hn _ (by simp)]
      by_cases hlen : n ≤ (a :: rest).length
      · have htake : ((a :: rest).take n).length = n := by
          rw [List.length_take]; omega
        rw [List.filter_cons, if_pos (by rw [htake]; simp)]
        rw [ih ((a :: rest).drop n)
              (by simp only [List.length_drop, List.length_cons] at *; omega)]
        have hdiv : (a :: rest).length / n = ((a :: rest).drop n).length / n + 1 := by
          rw [List.length_drop]
          rw [Nat.div_eq_sub_div (by omega) hlen]
        rw [hdiv, List.range_succ_eq_map, List.map_cons, List.map_map]
        congr 1
        · simp
        · apply List.map_congr_left
          intro k _
          simp only [Function.comp_apply, List.drop_drop]
          ring_nf
          rw [Nat.succ_eq_add_one]
          ring_nf
      · have hdrop : (a :: rest).drop n = [] :=
          List.eq_nil_of_length_eq_zero (by simp only [List.length_drop]; omega)
        rw [List.filter_cons]
        have hne : ¬((a :: rest).take n).length = n := by
          rw [List.length_take]; omega
        rw [if_neg (by simpa using hne)]
        rw [hdrop]
        have h0 : (a :: rest).length / n = 0 := Nat.div_eq_of_lt (by omega)
        rw [h0]
        simp [pychunks, pychunksGo]

/-- C8: record emission from the scanned value list `V` under property
list `P` (non-empty): the emitted records are exactly the `⌊|V| / |P|⌋`
sequential chunks of `V` (so a non-divisible remainder is discarded), and
when `|V| = |P|` exactly one record holding `V` is emitted. -/
theorem C8_record_emission (V P : List String) (hP : P ≠ []) :
    emitRecords V P =
      .ok ((List.range (V.length / P.length)).map
        fun k => mkDict P ((V.drop (k * P.length)).take P.length)) ∧
    (V.length = P.length → emitRecords V P = .ok [mkDict P V]) ∧
    (∀ L, emitRecords V P = .ok L → L.length = V.length / P.length) := by
  have hn : P.length ≠ 0 := by
    intro h
    exact hP (List.eq_nil_of_length_eq_zero h)
  have hmain : emitRecords V P =
      .ok ((List.range (V.length / P.length)).map
        fun k => mkDict P ((V.drop (k * P.length)).take P.length)) := by
    unfold emitRecords
    by_cases h1 : V.length = P.length
    · rw [if_pos h1, h1, Nat.div_self (by omega)]
      rw [show List.range 1 = [0] from rfl, List.map_cons, List.map_nil]
      rw [Nat.zero_mul, List.drop_zero, ← h1, List.take_length]
    · rw [if_neg h1, if_neg hn]
      rw [pychunks_filter_eq P.length hn V.length V le_rfl, List.map_map]
      rfl
  refine ⟨hmain, fun h1 => ?_, fun L hL => ?_⟩
  · unfold emitRecords
    rw [if_pos h1]
  · rw [hmain] at hL
    have := congrArg (fun x : List (List (String × String)) => x.length)
      (Except.ok.inj hL)
    simpa using this.symm

/-- C8 witness: five values under two properties yield `⌊5/2⌋ = 2`
records, the one-field remainder discarded; two values under two
properties yield the single record. -/
theorem C8_record_emission_witness :
    emitRecords ["a", "b", "c", "d", "e"] ["k1", "k2"] =
      .ok ((List.range (["a", "b", "c", "d", "e"].length / ["k1", "k2"].length)).map
        fun k => mkDict ["k1", "k2"]
          ((["a", "b", "c", "d", "e"].drop (k * ["k1", "k2"].length)).take
            ["k1", "k2"].length)) ∧
    emitRecords ["a", "b"] ["k1", "k2"] = .ok [mkDict ["k1", "k2"] ["a", "b"]] :=
  ⟨(C8_record_emission ["a", "b", "c", "d", "e"] ["k1", "k2"] (by decide)).1,
   (C8_record_emission ["a", "b"] ["k1", "k2"] (by decide)).2.1 (by decide)⟩

/-! ### The builder's container-scoping clause -/

theorem str_append_assoc (a b c : String) : a ++ b ++ c = a ++ (b ++ c) := by
  apply String.ext
  simp [String.data_append]

/-- C9: with a verb already selected and a non-empty container name
supplied to `bylist`, the create builder stores (and its built command
carries) the clause ` at list "<name>"`, while the read, update and
delete builders store (and their built commands carry) the clause
` of list "<name>"`; the two wordings differ for every name. -/
theorem C9_container_clause_wording (name : String) (hname : name ≠ "")
    (props : List (String × Value)) (ps : String)
    (hps : formatproperties props = .ok ps)
    (rprops : List String)
    (p : String) (v : Value) (fv : String) (hfv : formatvalue v = .ok fv) :
    (builderInit.create.bylist name).listclause =
      some (" at list \"" ++ name ++ "\"") ∧
    ((builderInit.read rprops).bylist name).listclause =
      some (" of list \"" ++ name ++ "\"") ∧
    ((builderInit.update p v).bylist name).listclause =
      some (" of list \"" ++ name ++ "\"") ∧
    (builderInit.delete.bylist name).listclause =
      some (" of list \"" ++ name ++ "\"") ∧
    (" at list \"" ++ name ++ "\"") ≠ (" of list \"" ++ name ++ "\"") ∧
    (∃ b, ((builderInit.create.bylist name).withproperties props).build = .ok b ∧
      b.command = some ("tell application \"Reminders\" to make new reminder" ++
        (" at list \"" ++ name ++ "\"") ++
        (" with properties \x7b" ++ ps ++ "\x7d"))) ∧
    (∃ b, ((builderInit.read rprops).byindexVal "every" |>.bylist name).build =
        .ok b ∧
      b.command = some ("tell application \"Reminders\" to get \x7b" ++
        String.intercalate ", "
          (if rprops = [] then DEFAULTPROPERTIES else rprops) ++
        "\x7d of every reminder " ++ (" of list \"" ++ name ++ "\""))) ∧
    (∃ b, ((builderInit.update p v).byindexStr "first" |>.bylist name).build =
        .ok b ∧
      b.command = some ("tell application \"Reminders\" to set " ++ p ++
        " of first reminder " ++ (" of list \"" ++ name ++ "\"") ++
        (" to " ++ fv))) ∧
    (∃ b, (builderInit.delete.byindexStr "first" |>.bylist name).build = .ok b ∧
      b.command = some ("tell application \"Reminders\" to delete (first reminder " ++
        (" of list \"" ++ name ++ "\"") ++ ")")) := by
  refine ⟨?_, ?_, ?_, ?_, ?_, ?_, ?_, ?_, ?_⟩
  · simp [builderInit, Builder.create, Builder.bylist, hname, CMD.CREATE]
  · simp [builderInit, Builder.read, Builder.bylist, hname, CMD.READ, CMD.CREATE]
  · simp [builderInit, Builder.update, Builder.bylist, hname, CMD.UPDATE, CMD.CREATE]
  · simp [builderInit, Builder.delete, Builder.bylist, hname, CMD.DELETE, CMD.CREATE]
  · intro h
    have h2 := congrArg String.data h
    simp [String.data_append] at h2
  · simp only [builderInit, Builder.create, Builder.bylist, Builder.withproperties,
      Builder.build, hname, if_pos, ne_eq, not_false_iff, hps, Bind.bind, Except.bind]
    refine ⟨_, rfl, ?_⟩
    show some _ = some _
    congr 1
    all_goals
      apply String.ext
      simp [String.data_append, CMD.CREATE]
  · simp only [builderInit, Builder.read, Builder.bylist, Builder.byindexVal,
      Builder.build, Builder.buildtarget, hname, if_pos, ne_eq, not_false_iff,
      CMD.CREATE, CMD.READ, reduceIte]
    refine ⟨_, rfl, ?_⟩
    show some _ = some _
    congr 1
    all_goals
      apply String.ext
      simp [String.data_append, CMD.READ, String.intercalate, String.intercalate.go]
  · simp [builderInit, Builder.update, Builder.bylist, Builder.byindexStr,
      Builder.build, Builder.buildtarget, hname, hfv,
      Bind.bind, Except.bind, CMD.CREATE, CMD.UPDATE]
    refine ⟨_, rfl, ?_⟩
    show some _ = some _
    congr 1
    all_goals
      apply String.ext
      simp [String.data_append, CMD.UPDATE, String.intercalate, String.intercalate.go]
  · simp [builderInit, Builder.delete, Builder.bylist, Builder.byindexStr,
      Builder.build, Builder.buildtarget, hname, CMD.CREATE, CMD.DELETE]
    refine ⟨_, rfl, ?_⟩
    show some _ = some _
    congr 1
    all_goals
      apply String.ext
      simp [String.data_append, CMD.DELETE, String.intercalate, String.intercalate.go]

/-- C9 witness: the four verbs built against the container `Tasks` with
a one-entry payload. -/
theorem C9_container_clause_wording_witness :
    (builderInit.create.bylist "Tasks").listclause = some " at list \"Tasks\"" ∧
    ∃ b, ((builderInit.create.bylist "Tasks").withproperties
        [("name", Value.vstr "x")]).build = .ok b ∧
      b.command = some ("tell application \"Reminders\" to make new reminder" ++
        (" at list \"" ++ "Tasks" ++ "\"") ++
        (" with properties \x7b" ++ "name:\"x\"" ++ "\x7d")) := by
  have h := C9_container_clause_wording "Tasks" (by decide)
    [("name", Value.vstr "x")] "name:\"x\"" (by decide) ["name"] "name"
    (Value.vstr "x") "\"x\"" (by decide)
  exact ⟨h.1, h.2.2.2.2.2.1⟩

/-! ### The date-literal recognizer accepts every encoded date -/

theorem takeWhile_append_all {p : Char → Bool} {l1 l2 : List Char}
    (h : ∀ c ∈ l1, p c = true) :
    (l1 ++ l2).takeWhile p = l1 ++ l2.takeWhile p := by
  induction l1 with
  | nil => simp
  | cons a l ih =>
    have h1 := h a (List.mem_cons_self a l)
    have h2 := ih fun c hc => h c (List.mem_cons_of_mem a hc)
    simp [List.cons_append, List.takeWhile_cons, h1, h2]

theorem dropWhile_append_all {p : Char → Bool} {l1 l2 : List Char}
    (h : ∀ c ∈ l1, p c = true) :
    (l1 ++ l2).dropWhile p = l2.dropWhile p := by
  induction l1 with
  | nil => simp
  | cons a l ih =>
    have h1 := h a (List.mem_cons_self a l)
    have h2 := ih fun c hc => h c (List.mem_cons_of_mem a hc)
    simp [List.cons_append, List.dropWhile_cons, h1, h2]

theorem seg_take {p : Char → Bool} {seg : List Char} {c : Char} {rest : List Char}
    (hseg : ∀ x ∈ seg, p x = true) (hc : p c = false) :
    (seg ++ c :: rest).takeWhile p = seg := by
  rw [takeWhile_append_all hseg]
  simp [List.takeWhile_cons, hc]

theorem seg_drop {p : Char → Bool} {seg : List Char} {c : Char} {rest : List Char}
    (hseg : ∀ x ∈ seg, p x = true) (hc : p c = false) :
    (seg ++ c :: rest).dropWhile p = c :: rest := by
  rw [dropWhile_append_all hseg]
  simp [List.dropWhile_cons, hc]

theorem ws_chars {c : Char} (hc : pyws c = true) :
    c = ' ' ∨ c = '\t' ∨ c = '\n' ∨ c = '\r' ∨ c = '\x0b' ∨ c = '\x0c' := by
  simp only [pyws, Bool.or_eq_true, decide_eq_true_eq] at hc
  tauto

theorem alpha_not_ws {c : Char} (hc : reAlpha c = true) : pyws c = false := by
  by_contra h
  have h2 : pyws c = true := by revert h; cases pyws c <;> simp
  rcases ws_chars h2 with rfl | rfl | rfl | rfl | rfl | rfl <;>
    exact absurd hc (by decide)

theorem digit_not_ws {c : Char} (hc : reDigit c = true) : pyws c = false := by
  by_contra h
  have h2 : pyws c = true := by revert h; cases pyws c <;> simp
  rcases ws_chars h2 with rfl | rfl | rfl | rfl | rfl | rfl <;>
    exact absurd hc (by decide)

theorem reDigit_space : reDigit ' ' = false := by decide

theorem reDigit_colon : reDigit ':' = false := by decide

theorem reDigit_M : reDigit 'M' = false := by decide

theorem reDigit_comma : reDigit ',' = false := by decide

theorem pyws_space : pyws ' ' = true := by decide

theorem pyws_a : pyws 'a' = false := by decide

theorem reAlpha_comma : reAlpha ',' = false := by decide

theorem reAlpha_space : reAlpha ' ' = false := by decide

theorem matchTimeEnd_seg {mer : Char} (hmer : mer = 'A' ∨ mer = 'P') :
    matchTimeEnd (' ' :: mer :: ['M']) = true := by
  rcases hmer with rfl | rfl <;> decide

theorem matchSeconds_seg {s1 s2 mer : Char}
    (hs1 : reDigit s1 = true) (hs2 : reDigit s2 = true)
    (hmer : mer = 'A' ∨ mer = 'P') :
    matchSeconds (':' :: s1 :: s2 :: ' ' :: mer :: ['M']) = true := by
  unfold matchSeconds
  simp [List.takeWhile_cons, List.dropWhile_cons, hs1, hs2, reDigit_space,
    matchTimeEnd_seg hmer]

theorem matchMinutes_seg {m1 m2 s1 s2 mer : Char}
    (hm1 : reDigit m1 = true) (hm2 : reDigit m2 = true)
    (hs1 : reDigit s1 = true) (hs2 : reDigit s2 = true)
    (hmer : mer = 'A' ∨ mer = 'P') :
    matchMinutes (m1 :: m2 :: ':' :: s1 :: s2 :: ' ' :: mer :: ['M']) = true := by
  unfold matchMinutes
  simp [List.takeWhile_cons, List.dropWhile_cons, hm1, hm2, reDigit_colon,
    matchSeconds_seg hs1 hs2 hmer]

theorem matchHour_seg {h1 h2 m1 m2 s1 s2 mer : Char}
    (hh1 : reDigit h1 = true) (hh2 : reDigit h2 = true)
    (hm1 : reDigit m1 = true) (hm2 : reDigit m2 = true)
    (hs1 : reDigit s1 = true) (hs2 : reDigit s2 = true)
    (hmer : mer = 'A' ∨ mer = 'P') :
    matchHour (h1 :: h2 :: ':' :: m1 :: m2 :: ':' :: s1 :: s2 :: ' ' :: mer :: ['M']) =
      true := by
  unfold matchHour
  simp [List.takeWhile_cons, List.dropWhile_cons, hh1, hh2, reDigit_colon,
    matchMinutes_seg hm1 hm2 hs1 hs2 hmer]

theorem matchAfterYear_seg {h1 h2 m1 m2 s1 s2 mer : Char}
    (hh1 : reDigit h1 = true) (hh2 : reDigit h2 = true)
    (hm1 : reDigit m1 = true) (hm2 : reDigit m2 = true)
    (hs1 : reDigit s1 = true) (hs2 : reDigit s2 = true)
    (hmer : mer = 'A' ∨ mer = 'P') :
    matchAfterYear (' ' :: 'a' :: 't' :: ' ' ::
      h1 :: h2 :: ':' :: m1 :: m2 :: ':' :: s1 :: s2 :: ' ' :: mer :: ['M']) =
      true := by
  unfold matchAfterYear
  simp [List.takeWhile_cons, List.dropWhile_cons, digit_not_ws hh1, pyws_space,
    pyws_a, matchHour_seg hh1 hh2 hm1 hm2 hs1 hs2 hmer]

theorem matchYearOn_seg {y1 y2 y3 y4 h1 h2 m1 m2 s1 s2 mer : Char}
    (hy1 : reDigit y1 = true) (hy2 : reDigit y2 = true)
    (hy3 : reDigit y3 = true) (hy4 : reDigit y4 = true)
    (hh1 : reDigit h1 = true) (hh2 : reDigit h2 = true)
    (hm1 : reDigit m1 = true) (hm2 : reDigit m2 = true)
    (hs1 : reDigit s1 = true) (hs2 : reDigit s2 = true)
    (hmer : mer = 'A' ∨ mer = 'P') :
    matchYearOn (y1 :: y2 :: y3 :: y4 :: ' ' :: 'a' :: 't' :: ' ' ::
      h1 :: h2 :: ':' :: m1 :: m2 :: ':' :: s1 :: s2 :: ' ' :: mer :: ['M']) =
      true := by
  unfold matchYearOn
  simp [List.takeWhile_cons, List.dropWhile_cons, hy1, hy2, hy3, hy4,
    reDigit_space, matchAfterYear_seg hh1 hh2 hm1 hm2 hs1 hs2 hmer]

theorem matchDayOn_seg {D : List Char}
    (hD1 : D.length = 1 ∨ D.length = 2) (hD2 : ∀ c ∈ D, reDigit c = true)
    {y1 y2 y3 y4 h1 h2 m1 m2 s1 s2 mer : Char}
    (hy1 : reDigit y1 = true) (hy2 : reDigit y2 = true)
    (hy3 : reDigit y3 = true) (hy4 : reDigit y4 = true)
    (hh1 : reDigit h1 = true) (hh2 : reDigit h2 = true)
    (hm1 : reDigit m1 = true) (hm2 : reDigit m2 = true)
    (hs1 : reDigit s1 = true) (hs2 : reDigit s2 = true)
    (hmer : mer = 'A' ∨ mer = 'P') :
    matchDayOn (D ++ ',' :: ' ' :: y1 :: y2 :: y3 :: y4 :: ' ' :: 'a' :: 't' :: ' ' ::
      h1 :: h2 :: ':' :: m1 :: m2 :: ':' :: s1 :: s2 :: ' ' :: mer :: ['M']) =
      true := by
  unfold matchDayOn
  rw [seg_take hD2 (by decide), seg_drop hD2 (by decide)]
  simp only [List.takeWhile_cons, List.dropWhile_cons, digit_not_ws hy1]
  rcases hD1 with hD1 | hD1 <;>
    simp [hD1, pyws_space,
      matchYearOn_seg hy1 hy2 hy3 hy4 hh1 hh2 hm1 hm2 hs1 hs2 hmer]

theorem matchMonthOn_seg {Mo : List Char}
    (hMo1 : Mo ≠ []) (hMo2 : ∀ c ∈ Mo, reAlpha c = true)
    {D : List Char}
    (hD1 : D.length = 1 ∨ D.length = 2) (hD2 : ∀ c ∈ D, reDigit c = true)
    {y1 y2 y3 y4 h1 h2 m1 m2 s1 s2 mer : Char}
    (hy1 : reDigit y1 = true) (hy2 : reDigit y2 = true)
    (hy3 : reDigit y3 = true) (hy4 : reDigit y4 = true)
    (hh1 : reDigit h1 = true) (hh2 : reDigit h2 = true)
    (hm1 : reDigit m1 = true) (hm2 : reDigit m2 = true)
    (hs1 : reDigit s1 = true) (hs2 : reDigit s2 = true)
    (hmer : mer = 'A' ∨ mer = 'P') :
    matchMonthOn (Mo ++ ' ' :: (D ++ ',' :: ' ' ::
      y1 :: y2 :: y3 :: y4 :: ' ' :: 'a' :: 't' :: ' ' ::
      h1 :: h2 :: ':' :: m1 :: m2 :: ':' :: s1 :: s2 :: ' ' :: mer :: ['M'])) =
      true := by
  unfold matchMonthOn
  rw [seg_take hMo2 (by decide), seg_drop hMo2 (by decide)]
  obtain ⟨d1, D', rfl⟩ : ∃ d1 D', D = d1 :: D' := by
    rcases D with _ | ⟨d1, D'⟩
    · simp at hD1
    · exact ⟨d1, D', rfl⟩
  have hd1 : reDigit d1 = true := hD2 d1 (List.mem_cons_self _ _)
  have key := matchDayOn_seg hD1 hD2 hy1 hy2 hy3 hy4 hh1 hh2 hm1 hm2 hs1 hs2 hmer
  simp only [List.cons_append] at key
  simp [List.takeWhile_cons, List.dropWhile_cons, pyws_space, digit_not_ws hd1,
    hMo1, key, List.cons_append]

/-- The deterministic embedding of the `OsaDate` regex accepts every
string of the encoded shape
`<weekday>, <month> <day>, <y1y2y3y4> at <hh>:<mm>:<ss> <A|P>M`. -/
theorem matcher_accepts {Wd Mo : List Char}
    (hWd1 : Wd ≠ []) (hWd2 : ∀ c ∈ Wd, reAlpha c = true)
    (hMo1 : Mo ≠ []) (hMo2 : ∀ c ∈ Mo, reAlpha c = true)
    {D : List Char}
    (hD1 : D.length = 1 ∨ D.length = 2) (hD2 : ∀ c ∈ D, reDigit c = true)
    {y1 y2 y3 y4 h1 h2 m1 m2 s1 s2 mer : Char}
    (hy1 : reDigit y1 = true) (hy2 : reDigit y2 = true)
    (hy3 : reDigit y3 = true) (hy4 : reDigit y4 = true)
    (hh1 : reDigit h1 = true) (hh2 : reDigit h2 = true)
    (hm1 : reDigit m1 = true) (hm2 : reDigit m2 = true)
    (hs1 : reDigit s1 = true) (hs2 : reDigit s2 = true)
    (hmer : mer = 'A' ∨ mer = 'P') :
    isosadateChars (Wd ++ ',' :: ' ' :: (Mo ++ ' ' :: (D ++ ',' :: ' ' ::
      y1 :: y2 :: y3 :: y4 :: ' ' :: 'a' :: 't' :: ' ' ::
      h1 :: h2 :: ':' :: m1 :: m2 :: ':' :: s1 :: s2 :: ' ' :: mer :: ['M']))) =
      true := by
  unfold isosadateChars
  rw [seg_drop hWd2 (by decide), seg_take hWd2 (by decide)]
  obtain ⟨mo1, Mo', rfl⟩ : ∃ mo1 Mo', Mo = mo1 :: Mo' := by
    rcases Mo with _ | ⟨mo1, Mo'⟩
    · exact absurd rfl hMo1
    · exact ⟨mo1, Mo', rfl⟩
  have hmo1 : reAlpha mo1 = true := hMo2 mo1 (List.mem_cons_self _ _)
  have key :=
    matchMonthOn_seg hMo1 hMo2 hD1 hD2 hy1 hy2 hy3 hy4 hh1 hh2 hm1 hm2 hs1 hs2 hmer
  simp only [List.cons_append] at key
  simp [List.takeWhile_cons, List.dropWhile_cons, pyws_space, alpha_not_ws hmo1,
    hWd1, key, List.cons_append]

theorem exists_pair {l : List Char} (h : l.length = 2) : ∃ a b, l = [a, b] := by
  rcases l with _ | ⟨a, _ | ⟨b, _ | c⟩⟩ <;> simp_all

theorem exists_quad {l : List Char} (h : l.length = 4) :
    ∃ a b c d, l = [a, b, c, d] := by
  rcases l with _ | ⟨a, _ | ⟨b, _ | ⟨c, _ | ⟨d, _ | e⟩⟩⟩⟩ <;> simp_all

/-- `pad2` always renders two digit characters for values up to 99. -/
theorem pad2_spec (n : Nat) (h : n ≤ 99) :
    ∃ a b, (pad2 n).data = [a, b] ∧ reDigit a = true ∧ reDigit b = true := by
  unfold pad2
  split_ifs with h10
  · have hlen : (pyNatStr n).data.length = 1 := pyNatStr_length1 (by omega)
    obtain ⟨c, hc⟩ : ∃ c, (pyNatStr n).data = [c] := by
      rcases hd : (pyNatStr n).data with _ | ⟨c, _ | t⟩ <;> simp_all
    refine ⟨'0', c, ?_, by decide, ?_⟩
    · rw [String.data_append, hc]
      rfl
    · exact pyNatStr_all_digit n c (by rw [hc]; exact List.mem_singleton.2 rfl)
  · have hlen : (pyNatStr n).data.length = 2 := pyNatStr_length2 (by omega) h
    obtain ⟨a, b, hab⟩ := exists_pair hlen
    refine ⟨a, b, hab, ?_, ?_⟩ <;>
      apply pyNatStr_all_digit n <;> rw [hab] <;> simp

/-- `%A` renders a non-empty all-alphabetic weekday name. -/
theorem strftimeA_spec (d : PyDatetime) :
    (strftimeA d).data ≠ [] ∧ ∀ c ∈ (strftimeA d).data, reAlpha c = true := by
  have h7 : pyWeekday d < 7 := Nat.mod_lt _ (by norm_num)
  unfold strftimeA
  set w := pyWeekday d with hw
  interval_cases w <;> decide

/-- `%B` renders a non-empty all-alphabetic month name for a valid
month. -/
theorem strftimeB_spec (d : PyDatetime) (h1 : 1 ≤ d.month) (h2 : d.month ≤ 12) :
    (strftimeB d).data ≠ [] ∧ ∀ c ∈ (strftimeB d).data, reAlpha c = true := by
  unfold strftimeB
  set m := d.month with hm
  interval_cases m <;> decide

/-- `%p` renders `AM` or `PM`. -/
theorem strftimeP_spec (d : PyDatetime) :
    (strftimeP d).data = ['A', 'M'] ∨ (strftimeP d).data = ['P', 'M'] := by
  unfold strftimeP
  split_ifs
  · exact Or.inl rfl
  · exact Or.inr rfl

/-- C7 (amended): for every valid datetime with a four-digit year
(`1000 ≤ year`), the encoder `OsaDate.FromDatetime` succeeds and the
recognition predicate accepts the produced literal. -/
theorem C7_amended_encode_recognized (d : PyDatetime) (hv : d.Valid)
    (hy : 1000 ≤ d.year) :
    isosadateStr (osaFormat d) = true ∧
    OsaDateFromDatetime d = .ok (osaFormat d) := by
  obtain ⟨hy1, hy2, hm1, hm2, hd1, hd2, hh, hmin, hsec⟩ := hv
  obtain ⟨hA1, hA2⟩ := strftimeA_spec d
  obtain ⟨hB1, hB2⟩ := strftimeB_spec d hm1 hm2
  obtain ⟨a1, a2, hA, ha1, ha2⟩ := pad2_spec d.hour (by omega)
  obtain ⟨b1, b2, hB, hb1, hb2⟩ := pad2_spec d.minute (by omega)
  obtain ⟨c1, c2, hC, hc1, hc2⟩ := pad2_spec d.second (by omega)
  have hYlen : (pyNatStr d.year).data.length = 4 := pyNatStr_length4 hy (by omega)
  obtain ⟨u1, u2, u3, u4, hY⟩ := exists_quad hYlen
  have hu1 : reDigit u1 = true := by
    apply pyNatStr_all_digit d.year; rw [hY]; simp
  have hu2 : reDigit u2 = true := by
    apply pyNatStr_all_digit d.year; rw [hY]; simp
  have hu3 : reDigit u3 = true := by
    apply pyNatStr_all_digit d.year; rw [hY]; simp
  have hu4 : reDigit u4 = true := by
    apply pyNatStr_all_digit d.year; rw [hY]; simp
  have hDd : ∀ c ∈ (pyNatStr d.day).data, reDigit c = true := pyNatStr_all_digit _
  have hDlen : (pyNatStr d.day).data.length = 1 ∨ (pyNatStr d.day).data.length = 2 := by
    rcases le_or_lt d.day 9 with h9 | h9
    · exact Or.inl (pyNatStr_length1 h9)
    · exact Or.inr (pyNatStr_length2 (by omega) (by omega))
  have hiso : isosadateStr (osaFormat d) = true := by
    unfold isosadateStr
    rcases strftimeP_spec d with hP | hP
    · have key : (osaFormat d).data =
          (strftimeA d).data ++ ',' :: ' ' :: ((strftimeB d).data ++ ' ' ::
           ((pyNatStr d.day).data ++ ',' :: ' ' ::
            u1 :: u2 :: u3 :: u4 :: ' ' :: 'a' :: 't' :: ' ' ::
            a1 :: a2 :: ':' :: b1 :: b2 :: ':' :: c1 :: c2 :: ' ' :: 'A' :: ['M'])) := by
        simp [osaFormat, pyTimeStr, String.data_append, hA, hB, hC, hY, hP]
      rw [key]
      exact matcher_accepts hA1 hA2 hB1 hB2 hDlen hDd hu1 hu2 hu3 hu4
        ha1 ha2 hb1 hb2 hc1 hc2 (Or.inl rfl)
    · have key : (osaFormat d).data =
          (strftimeA d).data ++ ',' :: ' ' :: ((strftimeB d).data ++ ' ' ::
           ((pyNatStr d.day).data ++ ',' :: ' ' ::
            u1 :: u2 :: u3 :: u4 :: ' ' :: 'a' :: 't' :: ' ' ::
            a1 :: a2 :: ':' :: b1 :: b2 :: ':' :: c1 :: c2 :: ' ' :: 'P' :: ['M'])) := by
        simp [osaFormat, pyTimeStr, String.data_append, hA, hB, hC, hY, hP]
      rw [key]
      exact matcher_accepts hA1 hA2 hB1 hB2 hDlen hDd hu1 hu2 hu3 hu4
        ha1 ha2 hb1 hb2 hc1 hc2 (Or.inr rfl)
  refine ⟨hiso, ?_⟩
  unfold OsaDateFromDatetime
  rw [hiso]
  simp

/-- C7 counterexample: the valid datetime 0999-01-01 (three-digit year)
encodes to a literal the recognizer rejects — `str(999)` renders only
three digits while the pattern demands `\d{4}` — so the `OsaDate`
constructor raises `ValueError` out of `FromDatetime`. -/
theorem C7_counterexample_three_digit_year :
    PyDatetime.Valid ⟨999, 1, 1, 0, 0, 0⟩ ∧
    isosadateStr (osaFormat ⟨999, 1, 1, 0, 0, 0⟩) = false ∧
    OsaDateFromDatetime ⟨999, 1, 1, 0, 0, 0⟩ =
      .error "ValueError: Invalid OsaDate" := by
  refine ⟨by decide, by decide, by decide⟩

/-- C7 witness: the amended encode/recognize round trip evaluated at
2024-04-22 18:00:00. -/
theorem C7_amended_witness :
    isosadateStr (osaFormat ⟨2024, 4, 22, 18, 0, 0⟩) = true ∧
    OsaDateFromDatetime ⟨2024, 4, 22, 18, 0, 0⟩ =
      .ok (osaFormat ⟨2024, 4, 22, 18, 0, 0⟩) :=
  C7_amended_encode_recognized ⟨2024, 4, 22, 18, 0, 0⟩ (by decide) (by decide)

/-! ### Batch counting in the sync loops -/

theorem importsLoop_count {δ : Type} (dc : DomainCollab δ)
    (emap : List (String × Option Int)) :
    ∀ (rems : List Reminder) (d : δ),
      (importsLoop dc emap rems d).1 + (importsLoop dc emap rems d).2.1 =
        (rems.filter truthyIdB).length := by
  intro rems
  induction rems with
  | nil => intro d; simp [importsLoop]
  | cons r rest ih =>
    intro d
    simp only [importsLoop]
    split
    · next heq =>
      simp [List.filter_cons, truthyIdB, heq, ih d]
    · next rid heq =>
      by_cases hrid : rid = ""
      · subst hrid
        simp [List.filter_cons, truthyIdB, heq, ih d]
      · rw [if_neg hrid]
        split
        · next p hfind =>
          rcases hupd : dc.updatetask d { r.totask with id := p.2 } with ⟨d1, ok⟩
          rcases hrec : importsLoop dc emap rest d1 with ⟨c, u, d2⟩
          have h9 := ih d1
          rw [hrec] at h9
          simp only [hupd, hrec]
          have hx : ((c, u, d2) : Nat × Nat × δ).1 = c := rfl
          have hy : ((c, u, d2) : Nat × Nat × δ).2.1 = u := rfl
          simp [List.filter_cons, truthyIdB, heq, hrid]
          omega
        · next hfind =>
          rcases hupd : dc.createtask d r.totask with ⟨d1, ok⟩
          rcases hrec : importsLoop dc emap rest d1 with ⟨c, u, d2⟩
          have h9 := ih d1
          rw [hrec] at h9
          simp only [hupd, hrec]
          have hx : ((c, u, d2) : Nat × Nat × δ).1 = c := rfl
          have hy : ((c, u, d2) : Nat × Nat × δ).2.1 = u := rfl
          simp [List.filter_cons, truthyIdB, heq, hrid]
          omega

theorem exportsLoop_updated_count {σ : Type} (H : Host σ)
    (jl : String → Option PyVal) (ln : Option String) (extantids : List String) :
    ∀ (tasks : List Task) (s : σ),
      (exportsLoop H jl ln extantids tasks s).2.1 =
        (tasks.filter (updatePathB extantids)).length ∧
      (exportsLoop H jl ln extantids tasks s).2.2.2.length = tasks.length := by
  intro tasks
  induction tasks with
  | nil => intro s; simp [exportsLoop]
  | cons t rest ih =>
    intro s
    simp only [exportsLoop]
    by_cases hdesc : t.description = ""
    · rw [if_pos hdesc]
      rcases hrec : exportsLoop H jl ln extantids rest s with ⟨c, u, s2, ts⟩
      have h9 := ih s
      rw [hrec] at h9
      have h91 : u = (rest.filter (updatePathB extantids)).length := h9.1
      have h92 : ts.length = rest.length := h9.2
      simp only [hrec]
      simp [List.filter_cons, updatePathB, hdesc, h91, h92]
    · rw [if_neg hdesc]
      cases hfound : (match pyget t.udas "reminder_id" with
          | some ridv => ridv ≠ "" && extantids.contains ridv
          | none => false) with
      | true =>
        rw [if_pos rfl]
        have hpath : updatePathB extantids t = true := by
          unfold updatePathB
          rw [hfound]
          simp [hdesc]
        rcases hupd : updatereminderM H jl ln (Reminder.FromTask t) s with ⟨s1, ok⟩
        rcases hrec : exportsLoop H jl ln extantids rest s1 with ⟨c, u, s2, ts⟩
        have h9 := ih s1
        rw [hrec] at h9
        have h91 : u = (rest.filter (updatePathB extantids)).length := h9.1
        have h92 : ts.length = rest.length := h9.2
        simp only [hupd, hrec]
        simp [List.filter_cons, hpath, h91, h92]
      | false =>
        rw [if_neg (by simp)]
        have hpath : updatePathB extantids t = false := by
          unfold updatePathB
          rw [hfound]
          simp
        rcases hcr : createreminderM H jl ln (Reminder.FromTask t) s with ⟨s1, newid⟩
        simp only [hcr]
        rcases hrec : exportsLoop H jl ln extantids rest s1 with ⟨c, u, s2, ts⟩
        have h9 := ih s1
        rw [hrec] at h9
        have h91 : u = (rest.filter (updatePathB extantids)).length := h9.1
        have h92 : ts.length = rest.length := h9.2
        split
        · next nid =>
          by_cases hne : nid = ""
          · rw [if_neg (by simp [hne])]
            simp only [hrec]
            simp [List.filter_cons, hpath, h91, h92]
          · rw [if_pos hne]
            simp only [hrec]
            simp [List.filter_cons, hpath, h91, h92]
        · simp only [hrec]
          simp [List.filter_cons, hpath, h91, h92]

theorem exportsLoop_created_zero {σ : Type} (H : Host σ)
    (jl : String → Option PyVal) (ln : Option String) (extantids : List String) :
    ∀ (tasks : List Task) (s : σ),
      (∀ t ∈ tasks, ∀ s' : σ,
        (createreminderM H jl ln (Reminder.FromTask t) s').2 = Option.none) →
      (exportsLoop H jl ln extantids tasks s).1 = 0 := by
  intro tasks
  induction tasks with
  | nil => intro s _; simp [exportsLoop]
  | cons t rest ih =>
    intro s hfail
    have hrest : ∀ t' ∈ rest, ∀ s' : σ,
        (createreminderM H jl ln (Reminder.FromTask t') s').2 = Option.none :=
      fun t' ht' => hfail t' (List.mem_cons_of_mem t ht')
    simp only [exportsLoop]
    by_cases hdesc : t.description = ""
    · rw [if_pos hdesc]
      rcases hrec : exportsLoop H jl ln extantids rest s with ⟨c, u, s2, ts⟩
      have h9 := ih s hrest
      rw [hrec] at h9
      have h91 : c = 0 := h9
      simp [hrec, h91]
    · rw [if_neg hdesc]
      cases hfound : (match pyget t.udas "reminder_id" with
          | some ridv => ridv ≠ "" && extantids.contains ridv
          | none => false) with
      | true =>
        rw [if_pos rfl]
        rcases hupd : updatereminderM H jl ln (Reminder.FromTask t) s with ⟨s1, ok⟩
        rcases hrec : exportsLoop H jl ln extantids rest s1 with ⟨c, u, s2, ts⟩
        have h9 := ih s1 hrest
        rw [hrec] at h9
        have h91 : c = 0 := h9
        simp [hupd, hrec, h91]
      | false =>
        rw [if_neg (by simp)]
        rcases hcr : createreminderM H jl ln (Reminder.FromTask t) s with ⟨s1, newid⟩
        have hnone : newid = Option.none := by
          have := hfail t (List.mem_cons_self t rest) s
          rw [hcr] at this
          exact this
        subst hnone
        rcases hrec : exportsLoop H jl ln extantids rest s1 with ⟨c, u, s2, ts⟩
        have h9 := ih s1 hrest
        rw [hrec] at h9
        have h91 : c = 0 := h9
        simp [hcr, hrec, h91]

/-- C4 (amended): the batch loops never abort — the export loop
processes every task (the returned in-memory list keeps the batch's
length) and counts `updated` purely by the update-path condition,
regardless of whether the issued update commands succeed (so a failed
update is still counted); when every create fails, nothing is counted as
created (create failures are excluded); and the import loop counts every
id-bearing record regardless of the task-store collaborator's
outcomes. -/
theorem C4_amended_batch_counting {σ δ : Type} (H : Host σ)
    (jl : String → Option PyVal) (ln : Option String) (extantids : List String)
    (tasks : List Task) (s : σ) (dc : DomainCollab δ)
    (emap : List (String × Option Int)) (rems : List Reminder) (d : δ) :
    (exportsLoop H jl ln extantids tasks s).2.1 =
      (tasks.filter (updatePathB extantids)).length ∧
    (exportsLoop H jl ln extantids tasks s).2.2.2.length = tasks.length ∧
    ((∀ t ∈ tasks, ∀ s' : σ,
        (createreminderM H jl ln (Reminder.FromTask t) s').2 = Option.none) →
      (exportsLoop H jl ln extantids tasks s).1 = 0) ∧
    (importsLoop dc emap rems d).1 + (importsLoop dc emap rems d).2.1 =
      (rems.filter truthyIdB).length :=
  ⟨(exportsLoop_updated_count H jl ln extantids tasks s).1,
   (exportsLoop_updated_count H jl ln extantids tasks s).2,
   exportsLoop_created_zero H jl ln extantids tasks s,
   importsLoop_count dc emap rems d⟩

/-- C4 amended witness: the counting contract evaluated on a host where
every spawn fails, one export task carrying a stored id, and one
id-bearing import record against a failing task-store collaborator. -/
theorem C4_amended_batch_counting_witness :
    (exportsLoop noHost jlNone Option.none ["R"] [taskWithRid] ()).2.1 =
      ([taskWithRid].filter (updatePathB ["R"])).length ∧
    (exportsLoop noHost jlNone Option.none ["R"] [taskWithRid] ()).2.2.2.length =
      [taskWithRid].length ∧
    (exportsLoop noHost jlNone Option.none ["R"] [buyMilkTask] ()).1 = 0 ∧
    (importsLoop dcFail [] [{ baseReminder "r" with id := some "R1" }] ()).1 +
      (importsLoop dcFail [] [{ baseReminder "r" with id := some "R1" }] ()).2.1 =
      ([{ baseReminder "r" with id := some "R1" }].filter truthyIdB).length := by
  have h1 := C4_amended_batch_counting noHost jlNone Option.none ["R"]
    [taskWithRid] () dcFail [] [{ baseReminder "r" with id := some "R1" }] ()
  have h2 := C4_amended_batch_counting noHost jlNone Option.none ["R"]
    [buyMilkTask] () dcFail [] [{ baseReminder "r" with id := some "R1" }] ()
  refine ⟨h1.1, h1.2.1, h2.2.2.1 ?_, h1.2.2.2⟩
  intro t ht s'
  rcases List.mem_singleton.1 ht with rfl
  rfl

/-! ### String plumbing of the specification host -/

theorem hasPrefixCl_append_self : ∀ (p t : List Char), hasPrefixCl p (p ++ t) = true := by
  intro p t
  induction p with
  | nil => rfl
  | cons a p ih => simp [hasPrefixCl, ih]

theorem hasPrefixCl_append_both :
    ∀ (a x y : List Char), hasPrefixCl (a ++ x) (a ++ y) = hasPrefixCl x y := by
  intro a x y
  induction a with
  | nil => rfl
  | cons c a ih => simp [hasPrefixCl, ih]

theorem dropWhile_all_false {p : Char → Bool} :
    ∀ {l : List Char}, (∀ c ∈ l, p c = false) → l.dropWhile p = l := by
  intro l h
  induction l with
  | nil => rfl
  | cons c t ih =>
    simp [List.dropWhile_cons, h c (List.mem_cons_self c t)]

theorem pysplitGo_no_hit (s1 : Char) (srest : List Char) :
    ∀ (cs : List Char) (fuel : Nat) (acc : List Char), cs.length ≤ fuel →
      (∀ c ∈ cs, c ≠ s1) →
      pysplitGo s1 srest fuel cs acc = [acc.reverse ++ cs] := by
  intro cs
  induction cs with
  | nil =>
    intro fuel acc _ _
    cases fuel <;> simp [pysplitGo]
  | cons c rest ih =>
    intro fuel acc hfuel hno
    cases fuel with
    | zero => simp at hfuel
    | succ f =>
      have hc : (s1 = c) = False := by
        simp [Ne.symm (hno c (List.mem_cons_self c rest))]
      simp only [pysplitGo, hasPrefixCl, hc, decide_False, Bool.false_and,
        Bool.false_eq_true, if_false]
      rw [ih f (c :: acc) (by simp at hfuel ⊢; omega)
            (fun c' hc' => hno c' (List.mem_cons_of_mem c hc'))]
      simp

/-- Splitting `sep ++ x` on a non-empty `sep` whose first character does
not occur in `x` yields exactly `["", x]`. -/
theorem pysplit_sep_prefix (sep x : String) (c1 : Char) (crest : List Char)
    (hsep : sep.data = c1 :: crest) (hx : ∀ c ∈ x.data, c ≠ c1) :
    pysplit (sep ++ x) sep = ["", x] := by
  obtain ⟨sdata⟩ := sep
  have hsd : sdata = c1 :: crest := hsep
  subst hsd
  show (pysplitGo c1 crest ((⟨c1 :: crest⟩ : String) ++ x).data.length
      ((⟨c1 :: crest⟩ : String) ++ x).data []).map (fun cs => (⟨cs⟩ : String)) =
    ["", x]
  have hdata : ((⟨c1 :: crest⟩ : String) ++ x).data = c1 :: (crest ++ x.data) := by
    rw [String.data_append]
    rfl
  rw [hdata]
  have hpre : hasPrefixCl (c1 :: crest) (c1 :: (crest ++ x.data)) = true := by
    rw [show c1 :: (crest ++ x.data) = (c1 :: crest) ++ x.data from rfl]
    exact hasPrefixCl_append_self _ _
  rw [show (c1 :: (crest ++ x.data)).length = (crest ++ x.data).length + 1 from rfl]
  simp only [pysplitGo, hpre, if_true]
  rw [List.drop_left]
  rw [pysplitGo_no_hit c1 crest x.data (crest ++ x.data).length []
        (by simp) hx]
  simp

/-- The fresh external ids of the specification store. -/
theorem fresh_data (n : Nat) :
    ("RID" ++ pyNatStr n).data = 'R' :: 'I' :: 'D' :: (pyNatStr n).data := by
  rw [String.data_append]
  rfl

theorem digit_ne_r {c : Char} (hc : reDigit c = true) : c ≠ 'r' := by
  intro h
  subst h
  exact absurd hc (by decide)

theorem fresh_chars (n : Nat) :
    ∀ c ∈ ("RID" ++ pyNatStr n).data, pyws c = false ∧ c ≠ 'r' := by
  intro c hc
  rw [fresh_data] at hc
  simp only [List.mem_cons] at hc
  rcases hc with rfl | rfl | rfl | hc
  · exact ⟨by decide, by decide⟩
  · exact ⟨by decide, by decide⟩
  · exact ⟨by decide, by decide⟩
  · have hd := pyNatStr_all_digit n c hc
    exact ⟨digit_not_ws hd, digit_ne_r hd⟩

theorem fresh_ne_nil (n : Nat) : ("RID" ++ pyNatStr n).data ≠ [] := by
  rw [fresh_data]
  simp

theorem fresh_ne_empty (n : Nat) : ("RID" ++ pyNatStr n) ≠ "" := by
  intro h
  have := congrArg String.data h
  rw [fresh_data] at this
  cases this

/-- Stripping leaves `reminder id <fresh>` unchanged: it starts with a
non-whitespace character and ends with one. -/
theorem pystrip_ridout (x : String) (hx1 : x.data ≠ [])
    (hx2 : ∀ c ∈ x.data, pyws c = false) :
    pystrip ("reminder id " ++ x) = "reminder id " ++ x := by
  unfold pystrip pystripCl
  have hd : ("reminder id " ++ x).data = 'r' :: ("eminder id ".data ++ x.data) := by
    rw [String.data_append]
    rfl
  rw [hd]
  rw [show ('r' :: ("eminder id ".data ++ x.data)).dropWhile pyws =
        'r' :: ("eminder id ".data ++ x.data) by
      simp [List.dropWhile_cons, pyws]]
  rcases hrev : x.data.reverse with _ | ⟨c, t⟩
  · exact absurd (by simpa using congrArg List.reverse hrev) hx1
  · have hcmem : c ∈ x.data := by
      rw [← List.mem_reverse, hrev]
      exact List.mem_cons_self c t
    rw [show ('r' :: ("eminder id ".data ++ x.data)).reverse =
          x.data.reverse ++ ("eminder id ".data.reverse ++ ['r']) by
        simp]
    rw [hrev]
    rw [show (c :: t) ++ ("eminder id ".data.reverse ++ ['r']) =
          c :: (t ++ ("eminder id ".data.reverse ++ ['r'])) from rfl]
    rw [show (c :: (t ++ ("eminder id ".data.reverse ++ ['r']))).dropWhile pyws =
          c :: (t ++ ("eminder id ".data.reverse ++ ['r'])) by
        simp [List.dropWhile_cons, hx2 c hcmem]]
    rw [show c :: (t ++ ("eminder id ".data.reverse ++ ['r'])) =
          (c :: t) ++ ("eminder id ".data.reverse ++ ['r']) from rfl]
    rw [← hrev]
    simp
    exact String.ext (by rw [hd]; rfl)

/-- A list none of whose characters is whitespace is unchanged by
`dropWhile pyws`. -/
theorem dropWhile_pyws_none (l : List Char) (hl : ∀ c ∈ l, pyws c = false) :
    l.dropWhile pyws = l := by
  cases l with
  | nil => rfl
  | cons c t => simp [List.dropWhile_cons, hl c (List.mem_cons_self c t)]

/-- `strip` is the identity on whitespace-free strings. -/
theorem pystrip_nows (x : String) (hx : ∀ c ∈ x.data, pyws c = false) :
    pystrip x = x := by
  unfold pystrip pystripCl
  rw [dropWhile_pyws_none x.data hx,
      dropWhile_pyws_none x.data.reverse (fun c hc => hx c (List.mem_reverse.1 hc)),
      List.reverse_reverse]

/-- The character data of a create response. -/
theorem rid_out_data (x : String) :
    ("reminder id " ++ x).data = 'r' :: ("eminder id ".data ++ x.data) := by
  rw [String.data_append]
  rfl

/-- `replace` copies any leading segment free of the pattern's first
character unchanged. -/
theorem pyreplaceGo_pre (p1 : Char) (ps repl : List Char) (pre rest : List Char)
    (hpre : ∀ c ∈ pre, c ≠ p1) (fuel : Nat) :
    ∃ tail, pyreplaceGo p1 ps repl fuel (pre ++ rest) = pre ++ tail := by
  induction pre generalizing fuel with
  | nil => exact ⟨pyreplaceGo p1 ps repl fuel rest, by simp⟩
  | cons c pre ih =>
    cases fuel with
    | zero => exact ⟨rest, rfl⟩
    | succ f =>
      have hc : c ≠ p1 := hpre c (List.mem_cons_self c pre)
      have hpf : hasPrefixCl (p1 :: ps) (c :: (pre ++ rest)) = false := by
        simp [hasPrefixCl, Ne.symm hc]
      obtain ⟨tail, ht⟩ := ih (fun c' hc' => hpre c' (List.mem_cons_of_mem c hc')) f
      refine ⟨tail, ?_⟩
      rw [List.cons_append]
      simp only [pyreplaceGo, hpf, Bool.false_eq_true, if_false]
      rw [ht]
      rfl

/-- Two words diverging after a common prefix: neither is a prefix of the
other's continuation. -/
theorem hasPrefixCl_append_diverge (a pt st : List Char) (x y : Char)
    (hxy : x ≠ y) :
    hasPrefixCl (a ++ x :: pt) (a ++ y :: st) = false := by
  induction a with
  | nil => simp [hasPrefixCl, hxy]
  | cons c a ih => simp [hasPrefixCl, ih]

/-- Merging the verb into the update command's literal prefix. -/
theorem set_pre_merge (T : List Char) :
    ("tell application \"Reminders\" to ").data ++
      ("set".data ++ (" ".data ++ T)) =
      ("tell application \"Reminders\" to set ").data ++ T := by
  conv_lhs => rw [← List.append_assoc, ← List.append_assoc]
  congr 1

/-- Merging the verb into the create command's literal prefix. -/
theorem make_pre_merge (T : List Char) :
    ("tell application \"Reminders\" to ").data ++
      ("make new reminder".data ++ T) =
      ("tell application \"Reminders\" to make new reminder").data ++ T := by
  conv_lhs => rw [← List.append_assoc]
  congr 1

/-- Reassociating the create response around the space-free separator. -/
theorem rid_space_merge (x : String) :
    ("reminder id " ++ x) = "reminder id" ++ (" " ++ x) := by
  apply String.ext
  simp only [String.data_append]
  conv_rhs => rw [← List.append_assoc]
  congr 1

/-- `bylist` only ever touches the list clause. -/
theorem bylist_operation (b : Builder) (name : String) :
    (b.bylist name).operation = b.operation := by
  unfold Builder.bylist
  split
  · split
    · split <;> rfl
    · rfl
  · rfl

theorem find_map_dictset {α : Type} (k : String) (v : α) (d : List (String × α))
    (h : (d.any fun p => p.1 = k) = true) :
    (d.map fun p => if p.1 = k then (k, v) else p).find? (fun p => p.1 = k) =
      some (k, v) := by
  induction d with
  | nil => cases h
  | cons p rest ih =>
    by_cases hp : p.1 = k
    · simp [List.find?_cons, hp]
    · simp only [List.any_cons, hp, decide_False, Bool.false_or] at h
      simp [List.find?_cons, hp, ih h]

theorem find_append_dictset {α : Type} (k : String) (v : α) (d : List (String × α))
    (h : (d.any fun p => p.1 = k) = false) :
    (d ++ [(k, v)]).find? (fun p => p.1 = k) = some (k, v) := by
  induction d with
  | nil => simp [List.find?_cons]
  | cons p rest ih =>
    rw [List.any_cons] at h
    have h12 := Bool.or_eq_false_iff.mp h
    have hp : ¬ p.1 = k := by simpa using h12.1
    simp [List.cons_append, List.find?_cons, hp, ih h12.2]

/-- A dict read at a freshly assigned key yields the assigned value. -/
theorem pyget_dictSet {α : Type} (d : List (String × α)) (k : String) (v : α) :
    pyget (dictSet d k v) k = some v := by
  unfold pyget dictSet
  by_cases h : (d.any fun p => p.1 = k) = true
  · rw [if_pos h, find_map_dictset k v d h]
    rfl
  · rw [if_neg h, find_append_dictset k v d (by rw [Bool.not_eq_true] at h; exact h)]
    rfl

/-- A create response is never the empty string. -/
theorem rid_out_ne_empty (x : String) : ("reminder id " ++ x) ≠ "" := by
  intro h
  have h2 := congrArg String.data h
  rw [rid_out_data] at h2
  cases h2

/-- Postprocessing a create response: exit 0 and whitespace-free payload
text pass through the executor as the raw string. -/
theorem execute_reminder_id (jl : String → Option PyVal) (x : String)
    (hx1 : x.data ≠ []) (hx2 : ∀ c ∈ x.data, pyws c = false) :
    execute jl (Except.ok ⟨0, "reminder id " ++ x, ""⟩) =
      PyVal.pystr ("reminder id " ++ x) := by
  have hb1 : pyStartsWith ("reminder id " ++ x) "\x7b" = false := by
    unfold pyStartsWith
    rw [rid_out_data, show ("\x7b" : String).data = ['\x7b'] from rfl]
    simp [hasPrefixCl]
  have hb2 : pyStartsWith ("reminder id " ++ x) "[" = false := by
    unfold pyStartsWith
    rw [rid_out_data, show ("[" : String).data = ['['] from rfl]
    simp [hasPrefixCl]
  simp only [execute]
  rw [pystrip_ridout x hx1 hx2]
  rw [if_neg (by decide : ¬((0 : Int) ≠ 0))]
  rw [if_pos (rid_out_ne_empty x)]
  rw [hb1, hb2]
  rfl

/-- Parsing the external id out of a create response whose id text is
non-empty, whitespace-free and free of the letter `r`. -/
theorem parseReminderid_rid (x : String) (hx1 : x.data ≠ [])
    (hxw : ∀ c ∈ x.data, pyws c = false) (hxr : ∀ c ∈ x.data, c ≠ 'r') :
    parseReminderid (.pystr ("reminder id " ++ x)) = .ok (some x) := by
  have hsplit2 : pysplit ("reminder id " ++ x) "reminder id " = ["", x] :=
    pysplit_sep_prefix "reminder id " x 'r' ("eminder id ".data) rfl hxr
  have hsplit1 : pysplit ("reminder id " ++ x) "reminder id" = ["", " " ++ x] := by
    rw [rid_space_merge]
    refine pysplit_sep_prefix "reminder id" (" " ++ x) 'r' ("eminder id".data) rfl ?_
    intro c hc
    rw [String.data_append] at hc
    rcases List.mem_append.mp hc with h | h
    · have hc' : c = ' ' := by simpa using h
      subst hc'
      decide
    · exact hxr c h
  have hcont : pyContains ("reminder id " ++ x) "reminder id" = true := by
    unfold pyContains
    rw [hsplit1]
    rfl
  have hcond : (decide (("reminder id " ++ x) ≠ "") &&
      pyContains ("reminder id " ++ x) "reminder id") = true := by
    rw [hcont, decide_eq_true (rid_out_ne_empty x)]
    rfl
  simp only [parseReminderid, hcond, if_true]
  rw [hsplit2]
  show Except.ok (some (pystrip x)) = Except.ok (some x)
  rw [pystrip_nows x hxw]

/-- A successful `build` of an update-verb builder yields a command
beginning with the literal `tell application "Reminders" to set `. -/
theorem build_update_tail (b1 b : Builder) (hop : b1.operation = some CMD.UPDATE)
    (hb : b1.build = .ok b) :
    ∃ (c : String) (tail : List Char), b.command = some c ∧
      c.data = ("tell application \"Reminders\" to set ").data ++ tail := by
  unfold Builder.build at hb
  rw [hop] at hb
  dsimp only at hb
  rw [if_neg (by decide : ¬(CMD.UPDATE = CMD.CREATE)),
      if_neg (by decide : ¬(CMD.UPDATE = CMD.READ)),
      if_pos (rfl : CMD.UPDATE = CMD.UPDATE)] at hb
  rcases hfv : formatvalue (b1.propertyvalue.getD Value.vnone) with e | val
  · rw [hfv] at hb
    simp only [Bind.bind, Except.bind] at hb
    exact Except.noConfusion hb
  · rw [hfv] at hb
    simp only [Bind.bind, Except.bind] at hb
    injection hb with hb2
    subst hb2
    refine ⟨"tell application \"Reminders\" to " ++ CMD.UPDATE ++ " " ++
        b1.propertyname.getD "None" ++ " of " ++ b1.buildtarget ++ " to " ++ val,
      (b1.propertyname.getD "None").data ++ (" of ".data ++
        (b1.buildtarget.data ++ (" to ".data ++ val.data))), rfl, ?_⟩
    simp only [String.data_append, List.append_assoc, CMD.UPDATE]
    exact set_pre_merge _

/-- A create-verb builder with a formattable payload builds successfully,
and its command begins with the full create phrase. -/
theorem build_create_cmd (b1 : Builder) (hop : b1.operation = some CMD.CREATE)
    (ps : String) (hps : formatproperties b1.propertyclauses = .ok ps) :
    ∃ b, b1.build = .ok b ∧ ∃ (c : String) (tail : List Char),
      b.command = some c ∧
      c.data = ("tell application \"Reminders\" to make new reminder").data ++
        tail := by
  unfold Builder.build
  rw [hop]
  dsimp only
  rw [if_pos (rfl : CMD.CREATE = CMD.CREATE)]
  rw [hps]
  simp only [Bind.bind, Except.bind]
  refine ⟨_, rfl, ?_⟩
  refine ⟨"tell application \"Reminders\" to " ++ CMD.CREATE ++
      b1.listclause.getD "" ++ " with properties \x7b" ++ ps ++ "\x7d",
    (b1.listclause.getD "").data ++ (" with properties \x7b".data ++
      (ps.data ++ "\x7d".data)), rfl, ?_⟩
  simp only [String.data_append, List.append_assoc, CMD.CREATE]
  exact make_pre_merge _

/-- The specification host on a create command: a fresh id is appended
and echoed. -/
theorem specHost_create_run (s : ExtStore) (c : String) (tail : List Char)
    (hc : c.data =
      ("tell application \"Reminders\" to make new reminder").data ++ tail) :
    specHost.run s c =
      (⟨s.ids ++ ["RID" ++ pyNatStr s.counter], s.counter + 1⟩,
       .ok ⟨0, "reminder id " ++ ("RID" ++ pyNatStr s.counter), ""⟩) := by
  have hcond : hasPrefixCl
      ("tell application \"Reminders\" to make new reminder").data c.data = true := by
    rw [hc]
    exact hasPrefixCl_append_self _ _
  dsimp only [specHost]
  rw [hcond]
  rfl

/-- The specification host on an update (`set`) command: pure side
effect, state unchanged, empty success output. -/
theorem specHost_set_run (s : ExtStore) (c : String) (tail : List Char)
    (hc : c.data = ("tell application \"Reminders\" to set ").data ++ tail) :
    specHost.run s c = (s, .ok ⟨0, "", ""⟩) := by
  have hcond : hasPrefixCl
      ("tell application \"Reminders\" to make new reminder").data c.data = false := by
    rw [hc]
    rw [show ("tell application \"Reminders\" to make new reminder").data =
          ("tell application \"Reminders\" to ").data ++
            'm' :: ("ake new reminder").data from by decide]
    rw [show ("tell application \"Reminders\" to set ").data =
          ("tell application \"Reminders\" to ").data ++ 's' :: ("et ").data
        from by decide]
    rw [List.append_assoc, List.cons_append]
    exact hasPrefixCl_append_diverge _ _ _ 'm' 's' (by decide)
  dsimp only [specHost]
  rw [hcond]
  rfl

/-- Selecting a list never changes the chosen verb. -/
theorem lnSelect_operation (ln : Option String) (b0 : Builder) :
    (lnSelect ln b0).operation = b0.operation := by
  unfold lnSelect
  rcases ln with _ | l
  · rfl
  · show (if l ≠ "" then b0.bylist l else b0).operation = b0.operation
    by_cases hl : l ≠ ""
    · rw [if_pos hl, bylist_operation]
    · rw [if_neg hl]

/-- `_createreminder` against the specification host: when the payload
formats, the store gains exactly the fresh id and that id is returned. -/
theorem createreminderM_spec (jl : String → Option PyVal) (ln : Option String)
    (r : Reminder) (ids : List String) (n : Nat) (ps : String)
    (hps : formatproperties r.osaproperties = .ok ps) :
    createreminderM specHost jl ln r ⟨ids, n⟩ =
      (⟨ids ++ ["RID" ++ pyNatStr n], n + 1⟩, some ("RID" ++ pyNatStr n)) := by
  have hop : ((lnSelect ln builderInit.create).withproperties
      r.osaproperties).operation = some CMD.CREATE := by
    rw [show ((lnSelect ln builderInit.create).withproperties
          r.osaproperties).operation = (lnSelect ln builderInit.create).operation
        from rfl]
    rw [lnSelect_operation]
    rfl
  obtain ⟨b, hb, c, tail, hcmd, hcdata⟩ := build_create_cmd _ hop ps hps
  have hfresh1 := fresh_ne_nil n
  have hfreshw : ∀ ch ∈ ("RID" ++ pyNatStr n).data, pyws ch = false :=
    fun ch hc => (fresh_chars n ch hc).1
  have hfreshr : ∀ ch ∈ ("RID" ++ pyNatStr n).data, ch ≠ 'r' :=
    fun ch hc => (fresh_chars n ch hc).2
  have hce : cmdExecute specHost jl (⟨ids, n⟩ : ExtStore) b =
      ((⟨ids ++ ["RID" ++ pyNatStr n], n + 1⟩ : ExtStore),
       PyVal.pystr ("reminder id " ++ ("RID" ++ pyNatStr n))) := by
    unfold cmdExecute
    rw [hcmd]
    show (match specHost.run (⟨ids, n⟩ : ExtStore) c with
          | (s', pr) => (s', execute jl pr)) = _
    rw [specHost_create_run ⟨ids, n⟩ c tail hcdata]
    show ((⟨ids ++ ["RID" ++ pyNatStr n], n + 1⟩ : ExtStore),
          execute jl (Except.ok
            ⟨0, "reminder id " ++ ("RID" ++ pyNatStr n), ""⟩)) = _
    rw [execute_reminder_id jl ("RID" ++ pyNatStr n) hfresh1 hfreshw]
  simp only [createreminderM]
  rw [hb]
  show (let (s', out) := cmdExecute specHost jl (⟨ids, n⟩ : ExtStore) b
        match parseReminderid out with
        | .error _ => (s', Option.none)
        | .ok rid => (s', rid)) = _
  rw [hce]
  show (match parseReminderid
          (PyVal.pystr ("reminder id " ++ ("RID" ++ pyNatStr n))) with
        | .error _ =>
          ((⟨ids ++ ["RID" ++ pyNatStr n], n + 1⟩ : ExtStore), Option.none)
        | .ok rid =>
          ((⟨ids ++ ["RID" ++ pyNatStr n], n + 1⟩ : ExtStore), rid)) = _
  rw [parseReminderid_rid ("RID" ++ pyNatStr n) hfresh1 hfreshw hfreshr]

/-- The per-property update loop never changes the specification store:
every issued command is a `set` command, a pure side effect. -/
theorem updateRemProps_specHost_state (jl : String → Option PyVal)
    (ln : Option String) (rid : String) (props : List (String × Value))
    (s : ExtStore) (ok : Bool) :
    (updateRemProps specHost jl ln rid props s ok).1 = s := by
  induction props generalizing s ok with
  | nil => rfl
  | cons pv rest ih =>
    obtain ⟨p, v⟩ := pv
    have hop : (lnSelect ln ((builderInit.update p v).byindexStr "first")).operation
        = some CMD.UPDATE := by
      rw [lnSelect_operation]
      rfl
    simp only [updateRemProps]
    rcases hb : (lnSelect ln ((builderInit.update p v).byindexStr "first")).build
      with e | b
    · rfl
    · obtain ⟨c, tail, hcmd, hcdata⟩ := build_update_tail _ b hop hb
      have hb' : ({ b with command := b.command.map (fun c0 =>
          pyreplace c0 "first reminder" ("reminder id " ++ rid)) } : Builder).command
          = some (pyreplace c "first reminder" ("reminder id " ++ rid)) := by
        rw [show ({ b with command := b.command.map (fun c0 =>
              pyreplace c0 "first reminder" ("reminder id " ++ rid)) } :
                Builder).command =
            b.command.map (fun c0 =>
              pyreplace c0 "first reminder" ("reminder id " ++ rid)) from rfl]
        rw [hcmd]
        rfl
      have hrep : ∃ tail2,
          (pyreplace c "first reminder" ("reminder id " ++ rid)).data =
            ("tell application \"Reminders\" to set ").data ++ tail2 := by
        rw [show pyreplace c "first reminder" ("reminder id " ++ rid) =
            (⟨pyreplaceGo 'f' ("irst reminder").data
                ("reminder id " ++ rid).data c.data.length c.data⟩ : String)
          from rfl]
        rw [show ((⟨pyreplaceGo 'f' ("irst reminder").data
              ("reminder id " ++ rid).data c.data.length c.data⟩ : String).data) =
            pyreplaceGo 'f' ("irst reminder").data
              ("reminder id " ++ rid).data c.data.length c.data from rfl]
        rw [hcdata]
        exact pyreplaceGo_pre 'f' ("irst reminder").data
          ("reminder id " ++ rid).data
          ("tell application \"Reminders\" to set ").data tail
          (by decide) _
      obtain ⟨tail2, hrepd⟩ := hrep
      have hce : cmdExecute specHost jl s
          ({ b with command := b.command.map (fun c0 =>
            pyreplace c0 "first reminder" ("reminder id " ++ rid)) } : Builder) =
          (s, PyVal.pybool true) := by
        unfold cmdExecute
        rw [hb']
        show (match specHost.run s
                (pyreplace c "first reminder" ("reminder id " ++ rid)) with
              | (s', pr) => (s', execute jl pr)) = _
        rw [specHost_set_run s _ tail2 hrepd]
        show (s, execute jl (Except.ok ⟨0, "", ""⟩)) = _
        rw [show execute jl (Except.ok ⟨0, "", ""⟩) = PyVal.pybool true from rfl]
      show (updateRemProps specHost jl ln rid rest
          (cmdExecute specHost jl s
            ({ b with command := b.command.map (fun c0 =>
              pyreplace c0 "first reminder" ("reminder id " ++ rid)) } :
              Builder)).1
          (ok && (cmdExecute specHost jl s
            ({ b with command := b.command.map (fun c0 =>
              pyreplace c0 "first reminder" ("reminder id " ++ rid)) } :
              Builder)).2.truthy)).1 = s
      rw [hce]
      exact ih s (ok && true)

/-- `_updatereminder` never changes the specification store. -/
theorem updatereminderM_specHost_state (jl : String → Option PyVal)
    (ln : Option String) (r : Reminder) (s : ExtStore) :
    (updatereminderM specHost jl ln r s).1 = s := by
  unfold updatereminderM
  cases hid : r.id with
  | none => rfl
  | some rid =>
    show (if rid = "" then (s, false)
          else updateRemProps specHost jl ln rid r.osaproperties s true).1 = s
    by_cases h : rid = ""
    · rw [if_pos h]
    · rw [if_neg h]
      exact updateRemProps_specHost_state jl ln rid r.osaproperties s true

/-- Boolean membership agrees with membership. -/
theorem contains_mem (l : List String) (a : String) :
    l.contains a = true ↔ a ∈ l := by
  induction l with
  | nil => simp
  | cons x xs ih => simp [List.contains_cons, ih]

/-- The export loop on tasks that all carry a known external id (or an
empty description): pure update run — nothing created, one update per
task with a description, specification store untouched, tasks returned
unchanged. -/
theorem exportsLoop_stable (jl : String → Option PyVal) (ln : Option String)
    (extantids : List String) (tasks : List Task) (s : ExtStore)
    (h : ∀ t ∈ tasks, t.description ≠ "" → updatePathB extantids t = true) :
    exportsLoop specHost jl ln extantids tasks s =
      (0, tasks.countP (fun t => decide (t.description ≠ "")), s, tasks) := by
  induction tasks generalizing s with
  | nil => rfl
  | cons t rest ih =>
    have hrest : ∀ t' ∈ rest, t'.description ≠ "" →
        updatePathB extantids t' = true :=
      fun t' ht' => h t' (List.mem_cons_of_mem t ht')
    simp only [exportsLoop]
    by_cases hd : t.description = ""
    · rw [if_pos hd]
      rw [ih s hrest]
      simp [List.countP_cons, hd]
    · rw [if_neg hd]
      have hpath := h t (List.mem_cons_self t rest) hd
      cases hfound : (match pyget t.udas "reminder_id" with
          | some ridv => ridv ≠ "" && extantids.contains ridv
          | none => false) with
      | true =>
        rw [if_pos rfl]
        rcases hupd : updatereminderM specHost jl ln (Reminder.FromTask t) s
          with ⟨s1, okr⟩
        have h0 := updatereminderM_specHost_state jl ln (Reminder.FromTask t) s
        rw [hupd] at h0
        have hs1 : s1 = s := h0
        simp only [hupd, hs1]
        rw [ih s hrest]
        simp [List.countP_cons, hd]
      | false =>
        unfold updatePathB at hpath
        rw [hfound] at hpath
        simp at hpath

/-- The export loop from a store whose id set contains the extant-id
snapshot, on tasks whose payloads all format: the final id set extends
the initial one, created+updated counts exactly the tasks with a
description, that count is preserved in the returned tasks, and every
returned task with a description carries a truthy external id drawn from
the final id set. -/
theorem exportsLoop_fresh (jl : String → Option PyVal) (ln : Option String)
    (extantids : List String) (tasks : List Task)
    (hok : ∀ t ∈ tasks, buildsOK t = true) :
    ∀ (ids : List String) (n : Nat), (∀ x ∈ extantids, x ∈ ids) →
    ∃ newids,
      (exportsLoop specHost jl ln extantids tasks ⟨ids, n⟩).2.2.1.ids =
        ids ++ newids ∧
      (exportsLoop specHost jl ln extantids tasks ⟨ids, n⟩).1 +
        (exportsLoop specHost jl ln extantids tasks ⟨ids, n⟩).2.1 =
        tasks.countP (fun t => decide (t.description ≠ "")) ∧
      (exportsLoop specHost jl ln extantids tasks ⟨ids, n⟩).2.2.2.countP
        (fun t => decide (t.description ≠ "")) =
        tasks.countP (fun t => decide (t.description ≠ "")) ∧
      ∀ t' ∈ (exportsLoop specHost jl ln extantids tasks ⟨ids, n⟩).2.2.2,
        t'.description ≠ "" → updatePathB (ids ++ newids) t' = true := by
  induction tasks with
  | nil =>
    intro ids n hsub
    exact ⟨[], by simp [exportsLoop], by simp [exportsLoop],
           by simp [exportsLoop], by simp [exportsLoop]⟩
  | cons t rest ih =>
    have hokr : ∀ t' ∈ rest, buildsOK t' = true :=
      fun t' ht' => hok t' (List.mem_cons_of_mem t ht')
    intro ids n hsub
    simp only [exportsLoop]
    by_cases hd : t.description = ""
    · rw [if_pos hd]
      obtain ⟨newids, h1, h2, h3, h4⟩ := ih hokr ids n hsub
      rcases hrec : exportsLoop specHost jl ln extantids rest ⟨ids, n⟩
        with ⟨c, u, s2, ts⟩
      rw [hrec] at h1 h2 h3 h4
      have h1' : s2.ids = ids ++ newids := h1
      have h2' : c + u =
          List.countP (fun t => decide (t.description ≠ "")) rest := h2
      have h3' : List.countP (fun t => decide (t.description ≠ "")) ts =
          List.countP (fun t => decide (t.description ≠ "")) rest := h3
      have h4' : ∀ t' ∈ ts, t'.description ≠ "" →
          updatePathB (ids ++ newids) t' = true := h4
      simp only [hrec]
      refine ⟨newids, h1', ?_, ?_, ?_⟩
      · simpa [List.countP_cons, hd] using h2'
      · simpa [List.countP_cons, hd] using h3'
      · intro t' ht' hdesc'
        rcases List.mem_cons.mp ht' with rfl | ht2
        · exact absurd hd hdesc'
        · exact h4' t' ht2 hdesc'
    · rw [if_neg hd]
      cases hfound : (match pyget t.udas "reminder_id" with
          | some ridv => ridv ≠ "" && extantids.contains ridv
          | none => false) with
      | true =>
        rw [if_pos rfl]
        rcases hupd : updatereminderM specHost jl ln (Reminder.FromTask t) ⟨ids, n⟩
          with ⟨s1, okr⟩
        have h0 := updatereminderM_specHost_state jl ln (Reminder.FromTask t)
          ⟨ids, n⟩
        rw [hupd] at h0
        have hs1 : s1 = ⟨ids, n⟩ := h0
        obtain ⟨newids, h1, h2, h3, h4⟩ := ih hokr ids n hsub
        rcases hrec : exportsLoop specHost jl ln extantids rest ⟨ids, n⟩
          with ⟨c, u, s2, ts⟩
        rw [hrec] at h1 h2 h3 h4
        have h1' : s2.ids = ids ++ newids := h1
        have h2' : c + u =
            List.countP (fun t => decide (t.description ≠ "")) rest := h2
        have h3' : List.countP (fun t => decide (t.description ≠ "")) ts =
            List.countP (fun t => decide (t.description ≠ "")) rest := h3
        have h4' : ∀ t' ∈ ts, t'.description ≠ "" →
            updatePathB (ids ++ newids) t' = true := h4
        simp only [hupd, hs1, hrec]
        refine ⟨newids, h1', ?_, ?_, ?_⟩
        · simp only [List.countP_cons]
          simp [hd] at h2' ⊢
          omega
        · simp [List.countP_cons, hd]
          simpa using h3'
        · intro t' ht' hdesc'
          rcases List.mem_cons.mp ht' with rfl | ht2
          · cases hget : pyget t'.udas "reminder_id" with
            | none =>
              rw [hget] at hfound
              simp at hfound
            | some ridv =>
              rw [hget] at hfound
              simp at hfound
              unfold updatePathB
              rw [hget]
              have hmem : ridv ∈ ids := hsub ridv hfound.2
              simp [hdesc', hfound.1]
              exact Or.inl hmem
          · exact h4' t' ht2 hdesc'
      | false =>
        rw [if_neg (by simp)]
        have hbok := hok t (List.mem_cons_self t rest)
        unfold buildsOK at hbok
        rcases hfp : formatproperties (Reminder.FromTask t).osaproperties
          with e | ps
        · rw [hfp] at hbok
          simp at hbok
        · have hspec := createreminderM_spec jl ln (Reminder.FromTask t) ids n ps hfp
          simp only [hspec]
          rw [if_pos (fresh_ne_empty n)]
          obtain ⟨newids2, h1, h2, h3, h4⟩ := ih hokr
            (ids ++ ["RID" ++ pyNatStr n]) (n + 1)
            (fun x hx => List.mem_append_left _ (hsub x hx))
          rcases hrec : exportsLoop specHost jl ln extantids rest
            ⟨ids ++ ["RID" ++ pyNatStr n], n + 1⟩ with ⟨c, u, s2, ts⟩
          rw [hrec] at h1 h2 h3 h4
          have h1' : s2.ids = (ids ++ ["RID" ++ pyNatStr n]) ++ newids2 := h1
          have h2' : c + u =
              List.countP (fun t => decide (t.description ≠ "")) rest := h2
          have h3' : List.countP (fun t => decide (t.description ≠ "")) ts =
              List.countP (fun t => decide (t.description ≠ "")) rest := h3
          have h4' : ∀ t' ∈ ts, t'.description ≠ "" →
              updatePathB ((ids ++ ["RID" ++ pyNatStr n]) ++ newids2) t' =
                true := h4
          simp only [hrec]
          refine ⟨("RID" ++ pyNatStr n) :: newids2, ?_, ?_, ?_, ?_⟩
          · rw [h1']
            simp
          · simp only [List.countP_cons]
            simp [hd] at h2' ⊢
            omega
          · simp [List.countP_cons, hd]
            simpa using h3'
          · intro t' ht' hdesc'
            rcases List.mem_cons.mp ht' with rfl | ht2
            · unfold updatePathB
              rw [show ({ t with udas :=
                    (dictSet t.udas "reminder_id" ("RID" ++ pyNatStr n)) } :
                    Task).udas =
                  dictSet t.udas "reminder_id" ("RID" ++ pyNatStr n) from rfl]
              rw [pyget_dictSet]
              simp [hdesc', fresh_ne_empty n]
            · have h4t := h4' t' ht2 hdesc'
              rw [show ids ++ (("RID" ++ pyNatStr n) :: newids2) =
                  (ids ++ ["RID" ++ pyNatStr n]) ++ newids2 by simp]
              exact h4t

/-- C2 (amended): export idempotence holds only with persistence of the
written-back ids.  If the second run's task fetch returns the first run's
in-memory tasks (which carry the ids written back by the first run) and
every exported payload formats, then the second export run against the
specification store creates nothing, updates exactly as many records as
the first run affected (created + updated), leaves the external id set
unchanged, and leaves the tasks unchanged.  (Without that persistence the
second run re-creates every record: see the counterexample.) -/
theorem C2_amended_export_idempotent_with_persistence
    (jl : String → Option PyVal) (ln : Option String) (tasks : List Task)
    (ids : List String) (n : Nat)
    (hok : ∀ t ∈ tasks, buildsOK t = true) :
    (exportsM specHost jl ExtStore.ids ln
        (exportsM specHost jl ExtStore.ids ln tasks ⟨ids, n⟩).2.2.2
        (exportsM specHost jl ExtStore.ids ln tasks ⟨ids, n⟩).2.2.1).1 = 0 ∧
    (exportsM specHost jl ExtStore.ids ln
        (exportsM specHost jl ExtStore.ids ln tasks ⟨ids, n⟩).2.2.2
        (exportsM specHost jl ExtStore.ids ln tasks ⟨ids, n⟩).2.2.1).2.1 =
      (exportsM specHost jl ExtStore.ids ln tasks ⟨ids, n⟩).1 +
      (exportsM specHost jl ExtStore.ids ln tasks ⟨ids, n⟩).2.1 ∧
    (exportsM specHost jl ExtStore.ids ln
        (exportsM specHost jl ExtStore.ids ln tasks ⟨ids, n⟩).2.2.2
        (exportsM specHost jl ExtStore.ids ln tasks ⟨ids, n⟩).2.2.1).2.2.1.ids =
      (exportsM specHost jl ExtStore.ids ln tasks ⟨ids, n⟩).2.2.1.ids ∧
    (exportsM specHost jl ExtStore.ids ln
        (exportsM specHost jl ExtStore.ids ln tasks ⟨ids, n⟩).2.2.2
        (exportsM specHost jl ExtStore.ids ln tasks ⟨ids, n⟩).2.2.1).2.2.2 =
      (exportsM specHost jl ExtStore.ids ln tasks ⟨ids, n⟩).2.2.2 := by
  rcases tasks with _ | ⟨t0, trest⟩
  · exact ⟨rfl, rfl, rfl, rfl⟩
  · obtain ⟨newids, h1, h2, h3, h4⟩ :=
      exportsLoop_fresh jl ln ids (t0 :: trest) hok ids n (fun x hx => hx)
    rcases hrec : exportsLoop specHost jl ln ids (t0 :: trest) ⟨ids, n⟩
      with ⟨c, u, s2, ts⟩
    rw [hrec] at h1 h2 h3 h4
    have h1' : s2.ids = ids ++ newids := h1
    have h2' : c + u =
        List.countP (fun t => decide (t.description ≠ "")) (t0 :: trest) := h2
    have h3' : List.countP (fun t => decide (t.description ≠ "")) ts =
        List.countP (fun t => decide (t.description ≠ "")) (t0 :: trest) := h3
    have h4' : ∀ t' ∈ ts, t'.description ≠ "" →
        updatePathB (ids ++ newids) t' = true := h4
    have hlen := (exportsLoop_updated_count specHost jl ln ids (t0 :: trest)
      ⟨ids, n⟩).2
    rw [hrec] at hlen
    have hlen' : ts.length = trest.length + 1 := hlen
    rcases ts with _ | ⟨t1, ts'⟩
    · simp at hlen'
    · have hfr : exportsM specHost jl ExtStore.ids ln (t0 :: trest) ⟨ids, n⟩ =
          (c, u, s2, t1 :: ts') := hrec
      have hstable := exportsLoop_stable jl ln s2.ids (t1 :: ts') s2
        (by
          intro t' ht' hdesc'
          rw [h1']
          exact h4' t' ht' hdesc')
      have hsr : exportsM specHost jl ExtStore.ids ln (t1 :: ts') s2 =
          (0, List.countP (fun t => decide (t.description ≠ "")) (t1 :: ts'),
           s2, t1 :: ts') := hstable
      simp only [hfr]
      simp only [hsr]
      refine ⟨trivial, ?_, trivial, trivial⟩
      have hcount : List.countP (fun t => decide (t.description ≠ ""))
          (t1 :: ts') = c + u := by
        rw [h3']
        exact h2'.symm
      simpa using hcount

/-- Witness: a single never-synced task from the empty store — the first
run creates `RID0`, and a second run over the first run's in-memory tasks
and store updates once, creates nothing, and leaves the id set at
`["RID0"]`. -/
theorem C2_amended_witness :
    (∀ t ∈ [buyMilkTask], buildsOK t = true) ∧
    ((exportsM specHost jlNone ExtStore.ids Option.none
        (exportsM specHost jlNone ExtStore.ids Option.none [buyMilkTask]
          ⟨[], 0⟩).2.2.2
        (exportsM specHost jlNone ExtStore.ids Option.none [buyMilkTask]
          ⟨[], 0⟩).2.2.1).1 = 0 ∧
     (exportsM specHost jlNone ExtStore.ids Option.none
        (exportsM specHost jlNone ExtStore.ids Option.none [buyMilkTask]
          ⟨[], 0⟩).2.2.2
        (exportsM specHost jlNone ExtStore.ids Option.none [buyMilkTask]
          ⟨[], 0⟩).2.2.1).2.1 =
       (exportsM specHost jlNone ExtStore.ids Option.none [buyMilkTask]
         ⟨[], 0⟩).1 +
       (exportsM specHost jlNone ExtStore.ids Option.none [buyMilkTask]
         ⟨[], 0⟩).2.1 ∧
     (exportsM specHost jlNone ExtStore.ids Option.none
        (exportsM specHost jlNone ExtStore.ids Option.none [buyMilkTask]
          ⟨[], 0⟩).2.2.2
        (exportsM specHost jlNone ExtStore.ids Option.none [buyMilkTask]
          ⟨[], 0⟩).2.2.1).2.2.1.ids =
       (exportsM specHost jlNone ExtStore.ids Option.none [buyMilkTask]
         ⟨[], 0⟩).2.2.1.ids ∧
     (exportsM specHost jlNone ExtStore.ids Option.none
        (exportsM specHost jlNone ExtStore.ids Option.none [buyMilkTask]
          ⟨[], 0⟩).2.2.2
        (exportsM specHost jlNone ExtStore.ids Option.none [buyMilkTask]
          ⟨[], 0⟩).2.2.1).2.2.2 =
       (exportsM specHost jlNone ExtStore.ids Option.none [buyMilkTask]
         ⟨[], 0⟩).2.2.2) :=
  ⟨by decide,
   C2_amended_export_idempotent_with_persistence jlNone Option.none
     [buyMilkTask] [] 0 (by decide)⟩

/-- Witness: the payload facts evaluated at a concrete reminder. -/
theorem C10_osaproperties_payload_witness :
    pyget (baseReminder "x").osaproperties "name" = some (Value.vstr "x") ∧
    "completed" ∉ (baseReminder "x").osaproperties.map Prod.fst ∧
    ¬("body" ∈ (baseReminder "x").osaproperties.map Prod.fst) ∧
    ∀ kv ∈ (baseReminder "x").osaproperties,
      formatvalue kv.2 ≠ .ok "missing value" :=
  ⟨(C10_osaproperties_payload (baseReminder "x")).1,
   (C10_osaproperties_payload (baseReminder "x")).2.1,
   fun h => by
     have h2 := ((C10_osaproperties_payload (baseReminder "x")).2.2.1).1 h
     rcases h2 with ⟨b, hb, _⟩
     exact Option.noConfusion hb,
   (C10_osaproperties_payload (baseReminder "x")).2.2.2.2.2.2⟩

end Taskr
